import Mathlib

set_option maxRecDepth 8192

/-!
Shallow embedding of the CHIP-8 interpreter core (`Chip8::Impl` of
`src/Chip8/Chip8.cpp`; `src/src/chip8.cpp` is the same code modulo renaming)
together with proofs about its instruction, load/reset and timer semantics.

Machine bytes and 16-bit words are modelled as `Nat` with explicit wraparound
(`% 256`, `% 65536`) where the C++ unsigned types wrap.  The `float`
accumulator `TimeCounter` is modelled as an exact rational.  `rand()` is an
explicit parameter.  Memory, the register file and the keyboard are total
functions on `Nat`; the C++ arrays only ever hold byte values, which theorems
assume where relevant.
-/

/-- Total memory size: 0x1000 bytes. -/
def TotalMemory : Nat := 0x1000

/-- Programs load at 0x200. -/
def ProgramStartAddress : Nat := 0x200

/-- Display framebuffer base address (0xF00-0xFFF, bit packed 64x32). -/
def DisplayAddress : Nat := 0xf00

/-- Call stack base address. -/
def StackAddress : Nat := 0xea0

/-- Capacity of the program region, as computed in the source. -/
def ProgramMemory : Nat := TotalMemory - ProgramStartAddress - (TotalMemory - StackAddress)

/-- Screen width in pixels. -/
def ScreenWidth : Nat := 64

/-- Screen height in pixels. -/
def ScreenHeight : Nat := 32

/-- Timer period: the timers tick at 60 Hz (`1 / 60.0f` in the source). -/
def TimePeriod : ℚ := 1 / 60

/-- The machine state owned by `Chip8::Impl`. -/
@[ext]
structure Chip8 where
  Memory : Nat → Nat
  V : Nat → Nat
  PC : Nat
  I : Nat
  SP : Nat
  DelayTimer : Nat
  SoundTimer : Nat
  TimeCounter : ℚ
  Keyboard : Nat → Bool

/-- Truncation to 16 bits (assignment to `uint16_t`). -/
def wrap16 (n : Nat) : Nat := n % 65536

/-- Truncation to 8 bits (assignment to `uint8_t`). -/
def wrap8 (n : Nat) : Nat := n % 256

/-- 16-bit subtraction with wraparound (`PC -= 2` on `uint16_t`). -/
def sub16 (a b : Nat) : Nat := (a + (65536 - b % 65536)) % 65536

/-- 8-bit subtraction with wraparound (`uint8_t` arithmetic). -/
def sub8 (a b : Nat) : Nat := (a + (256 - b % 256)) % 256

/-- Top nibble `(instruction & 0xf000) >> 12`. -/
def nib3 (w : Nat) : Nat := (w &&& 0xf000) >>> 12

/-- Second nibble `(instruction & 0x0f00) >> 8` (the X register selector). -/
def nib2 (w : Nat) : Nat := (w &&& 0x0f00) >>> 8

/-- Third nibble `(instruction & 0x00f0) >> 4` (the Y register selector). -/
def nib1 (w : Nat) : Nat := (w &&& 0x00f0) >>> 4

/-- Low nibble `(instruction & 0x000f)`. -/
def nib0 (w : Nat) : Nat := w &&& 0x000f

/-- Low byte `(instruction & 0x00ff)`. -/
def lowByte (w : Nat) : Nat := w &&& 0x00ff

/-- 12-bit immediate `(instruction & 0x0fff)`. -/
def imm12 (w : Nat) : Nat := w &&& 0x0fff

/-- Read one bit of the display (`BitView::Get` over `Memory[DisplayAddress..]`):
bit `b` lives in byte `DisplayAddress + b / 8`, mask `0x80 >> (b % 8)`. -/
def videoGet (mem : Nat → Nat) (b : Nat) : Bool :=
  mem (DisplayAddress + b / 8) &&& (0x80 >>> (b % 8)) != 0

/-- Write one bit of the display (`BitView::Set`): or the mask in, or mask it out. -/
def videoSet (mem : Nat → Nat) (b : Nat) (value : Bool) : Nat → Nat :=
  Function.update mem (DisplayAddress + b / 8)
    (if value then mem (DisplayAddress + b / 8) ||| (0x80 >>> (b % 8))
     else mem (DisplayAddress + b / 8) &&& (255 ^^^ (0x80 >>> (b % 8))))

/-- Pixel accessor `Chip8::GetPixel`. -/
def GetPixel (s : Chip8) (x y : Nat) : Bool :=
  videoGet s.Memory (y * ScreenWidth + x)

/-- Clear the display region (`memset(&Memory[DisplayAddress], 0, ...)` for `00E0`). -/
def clearDisplay (mem : Nat → Nat) : Nat → Nat :=
  fun a => if DisplayAddress ≤ a ∧ a < TotalMemory then 0 else mem a

/-- One iteration of the inner `j` loop of the `DXYN` sprite draw:
XOR sprite bit `j` of the current row into the framebuffer, recording a
collision in `V[15]` when a set pixel is cleared. -/
def colStep (y startX sprite j : Nat) (s : Chip8) : Chip8 :=
  let bitIdx := y * ScreenWidth + (startX + j) % ScreenWidth
  let screenVal := videoGet s.Memory bitIdx
  let spriteVal := sprite &&& (0x80 >>> j) != 0
  let mem1 := videoSet s.Memory bitIdx (xor screenVal spriteVal)
  if screenVal && !(videoGet mem1 bitIdx) then
    { s with Memory := mem1, V := Function.update s.V 15 1 }
  else { s with Memory := mem1 }

/-- The inner `for (j = 0; j < 8; j++)` loop of `DXYN`, processing `fuel`
columns starting at column `j`. -/
def colLoop (y startX sprite : Nat) : Nat → Nat → Chip8 → Chip8
  | _, 0, s => s
  | j, fuel + 1, s => colLoop y startX sprite (j + 1) fuel (colStep y startX sprite j s)

/-- One iteration of the outer row loop of `DXYN`: read the sprite row byte at
`Memory[I + i]` and the coordinate registers, then run the 8-column loop. -/
def rowStep (X Y i : Nat) (s : Chip8) : Chip8 :=
  colLoop ((s.V Y + i) % ScreenHeight) (s.V X) (s.Memory (s.I + i)) 0 8 s

/-- The outer `for (i = 0; i < n0; i++)` loop of `DXYN`, processing `fuel`
rows starting at row `i`. -/
def rowLoop (X Y : Nat) : Nat → Nat → Chip8 → Chip8
  | _, 0, s => s
  | i, fuel + 1, s => rowLoop X Y (i + 1) fuel (rowStep X Y i s)

/-- The `FX0A` key scan `for (i = 0; i < 16; i++)`: first pressed key starting
from index `i`, scanning `fuel` keys. -/
def keyScan (kb : Nat → Bool) : Nat → Nat → Option Nat
  | _, 0 => none
  | i, fuel + 1 => if kb i then some i else keyScan kb (i + 1) fuel

/-- Decode and execute one already-fetched instruction word `w`; `s.PC` has
already been advanced past the instruction.  `rnd` stands in for the `rand()`
call of `CXNN`.  This is the `switch (n3)` of `Chip8::Impl::ClockCycle`. -/
def dispatch (rnd w : Nat) (s : Chip8) : Chip8 :=
  let n2 := nib2 w
  let n1 := nib1 w
  let n0 := nib0 w
  let lb := lowByte w
  let nnn := imm12 w
  let vx := s.V n2
  let vy := s.V n1
  if nib3 w = 0 then
    if lb = 0xe0 then { s with Memory := clearDisplay s.Memory }
    else if lb = 0xee then
      { s with
        PC := wrap16 (s.Memory (StackAddress + s.SP) |||
                      (s.Memory (StackAddress + s.SP + 1)) <<< 8),
        SP := sub8 s.SP 2 }
    else { s with PC := sub16 s.PC 2 }
  else if nib3 w = 1 then { s with PC := nnn }
  else if nib3 w = 2 then
    let sp := wrap8 (s.SP + 2)
    let m1 := Function.update s.Memory (StackAddress + sp) (s.PC &&& 0xff)
    let m2 := Function.update m1 (StackAddress + sp + 1) ((s.PC &&& 0xff00) >>> 8)
    { s with SP := sp, Memory := m2, PC := nnn }
  else if nib3 w = 3 then
    if vx ^^^ lb = 0 then { s with PC := wrap16 (s.PC + 2) } else s
  else if nib3 w = 4 then
    if vx ^^^ lb ≠ 0 then { s with PC := wrap16 (s.PC + 2) } else s
  else if nib3 w = 5 then
    if vx = vy then { s with PC := wrap16 (s.PC + 2) } else s
  else if nib3 w = 6 then { s with V := Function.update s.V n2 lb }
  else if nib3 w = 7 then { s with V := Function.update s.V n2 (wrap8 (vx + lb)) }
  else if nib3 w = 8 then
    if n0 = 0 then { s with V := Function.update s.V n2 vy }
    else if n0 = 1 then { s with V := Function.update s.V n2 (vx ||| vy) }
    else if n0 = 2 then { s with V := Function.update s.V n2 (vx &&& vy) }
    else if n0 = 3 then { s with V := Function.update s.V n2 (vx ^^^ vy) }
    else if n0 = 4 then
      let v1 := Function.update s.V n2 (wrap8 (vx + vy))
      { s with V := Function.update v1 15 (if v1 n2 ≥ vx then 0 else 1) }
    else if n0 = 5 then
      let v1 := Function.update s.V n2 (sub8 vx vy)
      { s with V := Function.update v1 15 (if v1 n2 > vx then 0 else 1) }
    else if n0 = 6 then
      let v1 := Function.update s.V 15 (vx &&& 1)
      { s with V := Function.update v1 n2 (v1 n2 >>> 1) }
    else if n0 = 7 then
      let v1 := Function.update s.V n2 (sub8 vy vx)
      { s with V := Function.update v1 15 (if v1 n2 > vx then 0 else 1) }
    else if n0 = 0xe then
      let v1 := Function.update s.V 15 ((vx &&& 0x80) >>> 7)
      { s with V := Function.update v1 n2 (wrap8 (v1 n2 <<< 1)) }
    else { s with PC := sub16 s.PC 2 }
  else if nib3 w = 9 then
    if vx ≠ vy then { s with PC := wrap16 (s.PC + 2) } else s
  else if nib3 w = 0xa then { s with I := nnn }
  else if nib3 w = 0xb then { s with PC := wrap16 (s.V 0 + nnn) }
  else if nib3 w = 0xc then { s with V := Function.update s.V n2 ((rnd % 256) &&& lb) }
  else if nib3 w = 0xd then
    rowLoop n2 n1 0 n0 { s with V := Function.update s.V 15 0 }
  else if nib3 w = 0xe then
    if lb = 0x9e then
      if s.Keyboard vx then { s with PC := wrap16 (s.PC + 2) } else s
    else if lb = 0xa1 then
      if s.Keyboard vx then s else { s with PC := wrap16 (s.PC + 2) }
    else s
  else if nib3 w = 0xf then
    if lb = 0x07 then { s with V := Function.update s.V n2 s.DelayTimer }
    else if lb = 0x0a then
      match keyScan s.Keyboard 0 16 with
      | some i => { s with V := Function.update s.V n2 i }
      | none => { s with PC := sub16 s.PC 2 }
    else if lb = 0x15 then { s with DelayTimer := vx }
    else if lb = 0x18 then { s with SoundTimer := vx }
    else if lb = 0x1e then { s with I := wrap16 (s.I + vx) }
    else if lb = 0x29 then { s with I := wrap16 (vx * 5) }
    else if lb = 0x33 then
      let m1 := Function.update s.Memory s.I (vx / 100)
      let m2 := Function.update m1 (s.I + 1) ((vx - m1 s.I * 100) / 10)
      let m3 := Function.update m2 (s.I + 2) (vx - m2 s.I * 100 - m2 (s.I + 1) * 10)
      { s with Memory := m3 }
    else if lb = 0x55 then
      { s with Memory :=
          (List.range (n2 + 1)).foldl (fun m i => Function.update m (s.I + i) (s.V i)) s.Memory }
    else if lb = 0x65 then
      { s with V :=
          (List.range (n2 + 1)).foldl (fun v i => Function.update v i (s.Memory (s.I + i))) s.V }
    else { s with PC := sub16 s.PC 2 }
  else { s with PC := sub16 s.PC 2 }

/-- Big-endian instruction fetch at `PC`. -/
def fetch (s : Chip8) : Nat := (s.Memory s.PC) <<< 8 ||| s.Memory (s.PC + 1)

/-- Fetch, advance `PC` by 2, decode and execute one instruction: the part of
`Chip8::Impl::ClockCycle` that follows the timer bookkeeping. -/
def execute (rnd : Nat) (s : Chip8) : Chip8 :=
  dispatch rnd (fetch s) { s with PC := wrap16 (s.PC + 2) }

/-- The `while (TimeCounter > TimePeriod)` loop body, run at most `fuel` times:
pay off one period and decrement each running timer.  The C++ loop terminates
after exactly `(ceil (tc * 60) - 1).toNat` iterations, so running it with any
iteration bound at least that large (see `timerLoopF_eval`) reproduces it. -/
def timerLoopF : Nat → ℚ → Nat → Nat → ℚ × Nat × Nat
  | 0, tc, d, e => (tc, d, e)
  | fuel + 1, tc, d, e =>
    if tc > TimePeriod then
      timerLoopF fuel (tc - TimePeriod) (if 0 < d then d - 1 else d) (if 0 < e then e - 1 else e)
    else (tc, d, e)

/-- Iteration bound used for `timerLoopF`; at least the number of iterations
the while loop performs. -/
def timerFuel (tc : ℚ) : Nat := (Int.ceil (tc * 60)).toNat

/-- Timer bookkeeping at the top of `ClockCycle`: accumulate `deltaTime` and
pay off whole 60 Hz periods, decrementing the timers (which floor at 0). -/
def tickTimers (deltaTime : ℚ) (s : Chip8) : Chip8 :=
  let tc := s.TimeCounter + deltaTime
  let r := timerLoopF (timerFuel tc) tc s.DelayTimer s.SoundTimer
  { s with TimeCounter := r.1, DelayTimer := r.2.1, SoundTimer := r.2.2 }

/-- `Chip8::Impl::ClockCycle`: timer bookkeeping, then one fetch-decode-execute. -/
def ClockCycle (rnd : Nat) (deltaTime : ℚ) (s : Chip8) : Chip8 :=
  execute rnd (tickTimers deltaTime s)

/-- The 80-byte font table (`Characters`). -/
def Characters : List Nat :=
  [0xF0, 0x90, 0x90, 0x90, 0xF0,
   0x20, 0x60, 0x20, 0x20, 0x70,
   0xF0, 0x10, 0xF0, 0x80, 0xF0,
   0xF0, 0x10, 0xF0, 0x10, 0xF0,
   0x90, 0x90, 0xF0, 0x10, 0x10,
   0xF0, 0x80, 0xF0, 0x10, 0xF0,
   0xF0, 0x80, 0xF0, 0x90, 0xF0,
   0xF0, 0x10, 0x20, 0x40, 0x40,
   0xF0, 0x90, 0xF0, 0x90, 0xF0,
   0xF0, 0x90, 0xF0, 0x10, 0xF0,
   0xF0, 0x90, 0xF0, 0x90, 0x90,
   0xE0, 0x90, 0xE0, 0x90, 0xE0,
   0xF0, 0x80, 0x80, 0x80, 0xF0,
   0xE0, 0x90, 0x90, 0x90, 0xE0,
   0xF0, 0x80, 0xF0, 0x80, 0xF0,
   0xF0, 0x80, 0xF0, 0x80, 0x80]

/-- `Chip8::Impl::Reset`: zero memory, registers and keyboard, install the
font at address 0, set `PC = 0x200` and clear `SP`, `I` and the timers. -/
def resetState : Chip8 where
  Memory := fun a => if a < 80 then Characters.getD a 0 else 0
  V := fun _ => 0
  PC := ProgramStartAddress
  I := 0
  SP := 0
  DelayTimer := 0
  SoundTimer := 0
  TimeCounter := 0
  Keyboard := fun _ => false

/-- `Chip8::Impl::Load`: reject oversized ROMs (leaving the state untouched),
otherwise reset and copy the ROM bytes to `0x200`. -/
def Load (rom : List Nat) (s : Chip8) : Chip8 :=
  if rom.length > ProgramMemory then s
  else
    { resetState with
      Memory := fun a =>
        if ProgramStartAddress ≤ a ∧ a < ProgramStartAddress + rom.length
        then rom.getD (a - ProgramStartAddress) 0
        else resetState.Memory a }

/-- The guard of the oversize-ROM error branch of `Load` (the branch logs
"Rom data is to big" and returns without touching the machine). -/
def loadOversize (rom : List Nat) : Bool := rom.length > ProgramMemory

/-- The 64x32 splash screen image drawn by the constructor, row by row. -/
def SplashScreenData : String :=
  "................................................................" ++
  "................................................................" ++
  "................................................................" ++
  "................................................................" ++
  "................................................................" ++
  "................................................................" ++
  "................................................................" ++
  "................................................................" ++
  "................................................................" ++
  "................................................................" ++
  "................................................................" ++
  "............XXXXXXX..XX...XX..XX..XXXXXXX....XXXXXXX............" ++
  "............XX.......XX...XX..XX..XX...XX....XX...XX............" ++
  "............XX.......XX...XX..XX..XX...XX....XX...XX............" ++
  "............XX.......XX...XX..XX..XX...XX....XX...XX............" ++
  "............XX.......XXXXXXX..XX..XXXXXXX....XXXXXXX............" ++
  "............XX.......XX...XX..XX..XX.........XX...XX............" ++
  "............XX.......XX...XX..XX..XX.........XX...XX............" ++
  "............XX.......XX...XX..XX..XX.........XX...XX............" ++
  "............XXXXXXX..XX...XX..XX..XX.........XXXXXXX............" ++
  "................................................................" ++
  "................................................................" ++
  "................................................................" ++
  "................................................................" ++
  "................................................................" ++
  "................................................................" ++
  "................................................................" ++
  "................................................................" ++
  "................................................................" ++
  "................................................................" ++
  "................................................................" ++
  "................................................................"

/-- Whether the splash screen has pixel `(x, y)` set (the character test
`SplashScreenData[y * ScreenWidth + x] == 'X'` of the constructor). -/
def splashPixel (x y : Nat) : Bool :=
  SplashScreenData.data.getD (y * ScreenWidth + x) '.' == 'X'

/-- `Chip8::Impl::Impl`: `Reset()` followed by writing the splash screen into
video memory, column-major as in the constructor's nested loops. -/
def initState : Chip8 :=
  { resetState with
    Memory :=
      (List.range ScreenWidth).foldl (fun m x =>
        (List.range ScreenHeight).foldl (fun m y =>
          videoSet m (y * ScreenWidth + x) (splashPixel x y)) m)
        resetState.Memory }

/-! ### Decode helper arithmetic -/

/-- Extracting a nibble with a shifted mask is division and mod. -/
theorem and_mask_shift (w s : Nat) : (w &&& (15 <<< s)) >>> s = w / 2 ^ s % 16 := by
  apply Nat.eq_of_testBit_eq
  intro i
  rw [Nat.testBit_shiftRight, Nat.testBit_and, Nat.testBit_shiftLeft]
  have hr : w / 2 ^ s % 16 = (w >>> s) % 2 ^ 4 := by
    rw [Nat.shiftRight_eq_div_pow]; norm_num
  rw [hr, Nat.testBit_mod_two_pow, Nat.testBit_shiftRight]
  have h15 : (15 : Nat) = 2 ^ 4 - 1 := by norm_num
  rw [h15, Nat.testBit_two_pow_sub_one]
  have hle : s ≤ s + i := Nat.le_add_right s i
  simp [hle, Nat.add_sub_cancel_left]
  cases h : w.testBit (s + i) <;> simp [Nat.add_comm]

/-- The top nibble as division and mod. -/
theorem nib3_eq (w : Nat) : nib3 w = w / 4096 % 16 := by
  have h : (0xf000 : Nat) = 15 <<< 12 := by norm_num [Nat.shiftLeft_eq]
  rw [nib3, h, and_mask_shift]; norm_num

/-- The X-selector nibble as division and mod. -/
theorem nib2_eq (w : Nat) : nib2 w = w / 256 % 16 := by
  have h : (0x0f00 : Nat) = 15 <<< 8 := by norm_num [Nat.shiftLeft_eq]
  rw [nib2, h, and_mask_shift]; norm_num

/-- The Y-selector nibble as division and mod. -/
theorem nib1_eq (w : Nat) : nib1 w = w / 16 % 16 := by
  have h : (0x00f0 : Nat) = 15 <<< 4 := by norm_num [Nat.shiftLeft_eq]
  rw [nib1, h, and_mask_shift]; norm_num

/-- The low nibble as mod. -/
theorem nib0_eq (w : Nat) : nib0 w = w % 16 := by
  have := Nat.and_pow_two_sub_one_eq_mod w 4
  simpa [nib0] using this

/-- The low byte as mod. -/
theorem lowByte_eq (w : Nat) : lowByte w = w % 256 := by
  have := Nat.and_pow_two_sub_one_eq_mod w 8
  simpa [lowByte] using this

/-- The 12-bit immediate as mod. -/
theorem imm12_eq (w : Nat) : imm12 w = w % 4096 := by
  have := Nat.and_pow_two_sub_one_eq_mod w 12
  simpa [imm12] using this

/-- Advancing the program counter by 2 and then rewinding it by 2 is the
identity on 16-bit program counters. -/
theorem pc_net (p : Nat) (h : p < 65536) : sub16 (wrap16 (p + 2)) 2 = p := by
  simp only [sub16, wrap16]; omega

/-! ### Claim C4: oversized loads are rejected without touching the state -/

/-- Claim C4: for every byte buffer longer than 0xCA0 = 3232 bytes, `Load`
takes the oversize-error branch and returns with the machine state exactly as
it was; no bytes are copied. -/
theorem C4_load_oversize (rom : List Nat) (s : Chip8) (h : rom.length > 3232) :
    loadOversize rom = true ∧ Load rom s = s := by
  have hp : ProgramMemory = 3232 := by
    norm_num [ProgramMemory, TotalMemory, ProgramStartAddress, StackAddress]
  have hy : rom.length > ProgramMemory := by omega
  refine ⟨?_, ?_⟩
  · simp [loadOversize, hy]
  · rw [Load, if_pos hy]

/-- Claim C4 witness: a 3233-byte buffer is rejected and the machine is untouched. -/
theorem C4_load_oversize_witness :
    (List.replicate 3233 (0 : Nat)).length > 3232 ∧
      (loadOversize (List.replicate 3233 (0 : Nat)) = true ∧
        Load (List.replicate 3233 (0 : Nat)) resetState = resetState) :=
  ⟨by rw [List.length_replicate]; omega,
   C4_load_oversize _ resetState (by rw [List.length_replicate]; omega)⟩

/-! ### Claim C8: valid loads reset the machine and copy the bytes -/

/-- Claim C8: for every buffer of at most 3232 bytes, `Load` succeeds and
leaves `PC = 0x200`, `SP = 0`, `I = 0`, zero timers, and the bytes copied to
`memory[0x200..]`. -/
theorem C8_load_ok (rom : List Nat) (s : Chip8) (h : rom.length ≤ 3232) :
    (Load rom s).PC = 0x200 ∧ (Load rom s).SP = 0 ∧ (Load rom s).I = 0 ∧
      (Load rom s).DelayTimer = 0 ∧ (Load rom s).SoundTimer = 0 ∧
      ∀ k, k < rom.length → (Load rom s).Memory (0x200 + k) = rom.getD k 0 := by
  have hp : ProgramMemory = 3232 := by
    norm_num [ProgramMemory, TotalMemory, ProgramStartAddress, StackAddress]
  have hno : ¬ rom.length > ProgramMemory := by omega
  rw [Load, if_neg hno]
  refine ⟨rfl, rfl, rfl, rfl, rfl, ?_⟩
  intro k hk
  have hin : ProgramStartAddress ≤ 0x200 + k ∧ 0x200 + k < ProgramStartAddress + rom.length := by
    constructor
    · show 0x200 ≤ 0x200 + k
      omega
    · show 0x200 + k < 0x200 + rom.length
      omega
  show (if ProgramStartAddress ≤ 0x200 + k ∧ 0x200 + k < ProgramStartAddress + rom.length
        then rom.getD (0x200 + k - ProgramStartAddress) 0
        else resetState.Memory (0x200 + k)) = rom.getD k 0
  rw [if_pos hin]
  have harg : 0x200 + k - ProgramStartAddress = k := by
    show 0x200 + k - 0x200 = k
    omega
  rw [harg]

/-- Claim C8 witness: loading a 3-byte program. -/
theorem C8_load_ok_witness :
    (3 : Nat) ≤ 3232 ∧
      ((Load [7, 8, 9] resetState).PC = 0x200 ∧ (Load [7, 8, 9] resetState).SP = 0 ∧
        (Load [7, 8, 9] resetState).I = 0 ∧ (Load [7, 8, 9] resetState).DelayTimer = 0 ∧
        (Load [7, 8, 9] resetState).SoundTimer = 0 ∧
        ∀ k, k < ([7, 8, 9] : List Nat).length →
          (Load [7, 8, 9] resetState).Memory (0x200 + k) = ([7, 8, 9] : List Nat).getD k 0) :=
  ⟨by norm_num, C8_load_ok [7, 8, 9] resetState (by norm_num)⟩

/-! ### Claim C10: 8XY6 with X = F always leaves VF = 0 -/

/-- Claim C10: executing `8XY6` with X = F writes the flag `VF = VF & 1` and
then shifts the same register, so VF always ends 0 regardless of its prior
value. -/
theorem C10_shift_right_vf_zero (rnd w : Nat) (s : Chip8)
    (hw : fetch s = w) (h3 : nib3 w = 8) (h2 : nib2 w = 15) (h0 : nib0 w = 6) :
    (execute rnd s).V 15 = 0 := by
  rw [execute, hw, dispatch]
  simp only [h3, h2, h0]
  norm_num [Function.update_same]
  rw [h2, Function.update_same]
  omega

/-- A concrete machine whose next instruction is `8F16` (shift VF right),
with VF initially 0xAB. -/
def shrDemoState : Chip8 where
  Memory := fun a => if a = 0x200 then 0x8F else if a = 0x201 then 0x16 else 0
  V := fun i => if i = 15 then 0xAB else 0
  PC := 0x200
  I := 0
  SP := 0
  DelayTimer := 0
  SoundTimer := 0
  TimeCounter := 0
  Keyboard := fun _ => false

/-- Claim C10 witness: executing `8F16` with VF = 0xAB leaves VF = 0. -/
theorem C10_shift_right_vf_zero_witness :
    fetch shrDemoState = 0x8F16 ∧ nib3 0x8F16 = 8 ∧ nib2 0x8F16 = 15 ∧ nib0 0x8F16 = 6 ∧
      (execute 0 shrDemoState).V 15 = 0 :=
  ⟨by decide, by decide, by decide, by decide,
   C10_shift_right_vf_zero 0 0x8F16 shrDemoState (by decide) (by decide) (by decide) (by decide)⟩

/-! ### Claim C2: the 8XY4 carry flag -/

/-- Claim C2 (amended): `8XY4` sets VX to `(VX + VY) mod 256` (the flag write
clobbers the sum when X = F) and sets VF to 0 when the 8-bit result is at
least the original VX (no overflow), and to 1 otherwise - the opposite
polarity of the one claimed. -/
theorem C2_add_flag (rnd w : Nat) (s : Chip8)
    (hw : fetch s = w) (h3 : nib3 w = 8) (h0 : nib0 w = 4) :
    (execute rnd s).V 15 =
      (if (s.V (nib2 w) + s.V (nib1 w)) % 256 ≥ s.V (nib2 w) then 0 else 1) ∧
    (nib2 w ≠ 15 → (execute rnd s).V (nib2 w) = (s.V (nib2 w) + s.V (nib1 w)) % 256) := by
  rw [execute, hw, dispatch]
  simp only [h3, h0]
  norm_num [Function.update_same, wrap8]
  intro hne
  rw [Function.update_noteq hne, Function.update_same]

/-- A concrete machine whose next instruction is `8124` (V1 += V2) with
V1 = 1 and V2 = 2. -/
def addDemoState : Chip8 where
  Memory := fun a => if a = 0x200 then 0x81 else if a = 0x201 then 0x24 else 0
  V := fun i => if i = 1 then 1 else if i = 2 then 2 else 0
  PC := 0x200
  I := 0
  SP := 0
  DelayTimer := 0
  SoundTimer := 0
  TimeCounter := 0
  Keyboard := fun _ => false

/-- Claim C2 counterexample: with VX = 1, VY = 2 the 8-bit sum 3 is at least
the original VX, i.e. there is no overflow, yet `8XY4` sets VF = 0 - not 1 as
the claim states. -/
theorem C2_add_flag_counterexample :
    (1 + 2) % 256 ≥ 1 ∧ (execute 0 addDemoState).V 1 = 3 ∧
      (execute 0 addDemoState).V 15 = 0 := by
  refine ⟨by norm_num, by decide, by decide⟩

/-- Claim C2 witness: executing `8124` with V1 = 1, V2 = 2. -/
theorem C2_add_flag_witness :
    fetch addDemoState = 0x8124 ∧ nib3 0x8124 = 8 ∧ nib0 0x8124 = 4 ∧
      ((execute 0 addDemoState).V 15 =
          (if (addDemoState.V (nib2 0x8124) + addDemoState.V (nib1 0x8124)) % 256 ≥
              addDemoState.V (nib2 0x8124) then 0 else 1) ∧
        (nib2 0x8124 ≠ 15 →
          (execute 0 addDemoState).V (nib2 0x8124) =
            (addDemoState.V (nib2 0x8124) + addDemoState.V (nib1 0x8124)) % 256)) :=
  ⟨by decide, by decide, by decide,
   C2_add_flag 0 0x8124 addDemoState (by decide) (by decide) (by decide)⟩

/-! ### Claim C6: the FX0A blocking key wait -/

/-- If no key in the scanned window is pressed, the `FX0A` scan finds nothing. -/
theorem keyScan_eq_none (kb : Nat → Bool) :
    ∀ fuel i, (∀ t, i ≤ t → t < i + fuel → kb t = false) → keyScan kb i fuel = none := by
  intro fuel
  induction fuel with
  | zero => intro i _; rfl
  | succ f ih =>
    intro i h
    rw [keyScan, h i (le_refl i) (by omega)]
    simp only [Bool.false_eq_true, if_false]
    exact ih (i + 1) (fun t ht1 ht2 => h t (by omega) (by omega))

/-- If the `FX0A` scan returns `none`, no key in the scanned window is pressed. -/
theorem keyScan_none_all (kb : Nat → Bool) :
    ∀ fuel i, keyScan kb i fuel = none → ∀ t, i ≤ t → t < i + fuel → kb t = false := by
  intro fuel
  induction fuel with
  | zero => intro i _ t ht1 ht2; omega
  | succ f ih =>
    intro i h t ht1 ht2
    rw [keyScan] at h
    by_cases hi : kb i
    · rw [hi] at h; simp at h
    · rw [Bool.not_eq_true] at hi
      rw [hi] at h
      simp only [Bool.false_eq_true, if_false] at h
      rcases Nat.eq_or_lt_of_le ht1 with rfl | hlt
      · exact hi
      · exact ih (i + 1) h t hlt (by omega)

/-- If the `FX0A` scan returns key `k`, then `k` is pressed, lies in the
scanned window, and every scanned key before it is unpressed. -/
theorem keyScan_eq_some (kb : Nat → Bool) :
    ∀ fuel i k, keyScan kb i fuel = some k →
      kb k = true ∧ i ≤ k ∧ k < i + fuel ∧ ∀ t, i ≤ t → t < k → kb t = false := by
  intro fuel
  induction fuel with
  | zero => intro i k h; exact absurd h (by rw [keyScan]; simp)
  | succ f ih =>
    intro i k h
    rw [keyScan] at h
    by_cases hi : kb i
    · rw [hi] at h
      simp only [if_true] at h
      obtain rfl : i = k := Option.some.inj h
      exact ⟨hi, le_refl i, by omega, fun t ht1 ht2 => by omega⟩
    · rw [Bool.not_eq_true] at hi
      rw [hi] at h
      simp only [Bool.false_eq_true, if_false] at h
      obtain ⟨h1, h2, h3, h4⟩ := ih (i + 1) k h
      refine ⟨h1, by omega, by omega, fun t ht1 ht2 => ?_⟩
      rcases Nat.eq_or_lt_of_le ht1 with rfl | hlt
      · exact hi
      · exact h4 t hlt ht2

/-- Claim C6: `FX0A` with no key pressed rewinds PC to retry (a net no-op on
the whole state); with keys pressed it stores the lowest pressed key index
into VX and lets PC advance by 2. -/
theorem C6_wait_key (rnd w : Nat) (s : Chip8)
    (hw : fetch s = w) (h3 : nib3 w = 15) (hlb : lowByte w = 0x0a) (hpc : s.PC < 65536) :
    ((∀ i, i < 16 → s.Keyboard i = false) → execute rnd s = s) ∧
    (∀ k, k < 16 → s.Keyboard k = true →
      (execute rnd s).PC = wrap16 (s.PC + 2) ∧
      ∃ i, i < 16 ∧ s.Keyboard i = true ∧ (∀ j, j < i → s.Keyboard j = false) ∧
        (execute rnd s).V (nib2 w) = i) := by
  rw [execute, hw, dispatch]
  simp only [h3, hlb]
  norm_num
  constructor
  · intro hnone
    rw [keyScan_eq_none s.Keyboard 16 0 (fun t ht1 ht2 => hnone t (by omega))]
    show { s with PC := sub16 (wrap16 (s.PC + 2)) 2 } = s
    rw [pc_net s.PC hpc]
  · intro k hk hkk
    cases hks : keyScan s.Keyboard 0 16 with
    | none =>
      exact absurd (keyScan_none_all s.Keyboard 16 0 hks k (by omega) (by omega)) (by simp [hkk])
    | some i =>
      obtain ⟨h1, h2, h3i, h4⟩ := keyScan_eq_some s.Keyboard 16 0 i hks
      refine ⟨rfl, i, by omega, h1, fun j hj => h4 j (by omega) hj, ?_⟩
      show Function.update s.V (nib2 w) i (nib2 w) = i
      rw [Function.update_same]

/-- A concrete machine whose next instruction is `F50A` (wait key into V5),
with keys 3 and 5 pressed. -/
def keyDemoState : Chip8 where
  Memory := fun a => if a = 0x200 then 0xF5 else if a = 0x201 then 0x0A else 0
  V := fun _ => 0
  PC := 0x200
  I := 0
  SP := 0
  DelayTimer := 0
  SoundTimer := 0
  TimeCounter := 0
  Keyboard := fun i => i == 3 || i == 5

/-- Claim C6 witness: executing `F50A` with keys 3 and 5 pressed. -/
theorem C6_wait_key_witness :
    fetch keyDemoState = 0xF50A ∧ nib3 0xF50A = 15 ∧ lowByte 0xF50A = 0x0a ∧
      keyDemoState.PC < 65536 ∧
      (((∀ i, i < 16 → keyDemoState.Keyboard i = false) → execute 0 keyDemoState = keyDemoState) ∧
        (∀ k, k < 16 → keyDemoState.Keyboard k = true →
          (execute 0 keyDemoState).PC = wrap16 (keyDemoState.PC + 2) ∧
          ∃ i, i < 16 ∧ keyDemoState.Keyboard i = true ∧
            (∀ j, j < i → keyDemoState.Keyboard j = false) ∧
            (execute 0 keyDemoState).V (nib2 0xF50A) = i)) :=
  ⟨by decide, by decide, by decide, by decide,
   C6_wait_key 0 0xF50A keyDemoState (by decide) (by decide) (by decide) (by decide)⟩

/-! ### Claim C1: undocumented instruction words -/

/-- The 35 documented CHIP-8 opcodes, as enumerated in the interpreter's own
opcode table: `0NNN/00E0/00EE`, `1NNN`-`7XNN`, `8XY0`-`8XY7`, `8XYE`, `9XY0`,
`ANNN`-`DXYN`, `EX9E`, `EXA1` and the nine `FX..` opcodes. -/
def documented (w : Nat) : Bool :=
  if nib3 w = 0 then true
  else if nib3 w = 1 then true
  else if nib3 w = 2 then true
  else if nib3 w = 3 then true
  else if nib3 w = 4 then true
  else if nib3 w = 5 then nib0 w == 0
  else if nib3 w = 6 then true
  else if nib3 w = 7 then true
  else if nib3 w = 8 then
    nib0 w == 0 || nib0 w == 1 || nib0 w == 2 || nib0 w == 3 || nib0 w == 4 ||
    nib0 w == 5 || nib0 w == 6 || nib0 w == 7 || nib0 w == 0xe
  else if nib3 w = 9 then nib0 w == 0
  else if nib3 w = 0xa then true
  else if nib3 w = 0xb then true
  else if nib3 w = 0xc then true
  else if nib3 w = 0xd then true
  else if nib3 w = 0xe then lowByte w == 0x9e || lowByte w == 0xa1
  else if nib3 w = 0xf then
    lowByte w == 0x07 || lowByte w == 0x0a || lowByte w == 0x15 || lowByte w == 0x18 ||
    lowByte w == 0x1e || lowByte w == 0x29 || lowByte w == 0x33 || lowByte w == 0x55 ||
    lowByte w == 0x65
  else false

theorem C1_unknown_opcode (rnd w : Nat) (s : Chip8)
    (hw : fetch s = w) (hpc : s.PC < 65536) (hundoc : documented w = false) :
    (execute rnd s).Memory = s.Memory ∧ (execute rnd s).V = s.V ∧
    (execute rnd s).I = s.I ∧ (execute rnd s).SP = s.SP ∧
    (execute rnd s).DelayTimer = s.DelayTimer ∧
    (execute rnd s).SoundTimer = s.SoundTimer ∧
    (execute rnd s).Keyboard = s.Keyboard ∧
    (execute rnd s).TimeCounter = s.TimeCounter ∧
    ((nib3 w = 8 ∨ nib3 w = 15) → (execute rnd s).PC = s.PC) ∧
    (nib3 w = 14 → (execute rnd s).PC = wrap16 (s.PC + 2)) ∧
    (nib3 w = 5 → (execute rnd s).PC =
      (if s.V (nib2 w) = s.V (nib1 w) then wrap16 (wrap16 (s.PC + 2) + 2)
       else wrap16 (s.PC + 2))) ∧
    (nib3 w = 9 → (execute rnd s).PC =
      (if s.V (nib2 w) = s.V (nib1 w) then wrap16 (s.PC + 2)
       else wrap16 (wrap16 (s.PC + 2) + 2))) := by
  have h3lt : nib3 w < 16 := by rw [nib3_eq]; omega
  have hcases : nib3 w = 0 ∨ nib3 w = 1 ∨ nib3 w = 2 ∨ nib3 w = 3 ∨ nib3 w = 4 ∨
      nib3 w = 5 ∨ nib3 w = 6 ∨ nib3 w = 7 ∨ nib3 w = 8 ∨ nib3 w = 9 ∨ nib3 w = 10 ∨
      nib3 w = 11 ∨ nib3 w = 12 ∨ nib3 w = 13 ∨ nib3 w = 14 ∨ nib3 w = 15 := by omega
  rcases hcases with h3|h3|h3|h3|h3|h3|h3|h3|h3|h3|h3|h3|h3|h3|h3|h3
  · exact absurd hundoc (by simp [documented, h3])
  · exact absurd hundoc (by simp [documented, h3])
  · exact absurd hundoc (by simp [documented, h3])
  · exact absurd hundoc (by simp [documented, h3])
  · exact absurd hundoc (by simp [documented, h3])
  · -- family 5: executed as SE VX, VY whatever the low nibble
    rw [execute, hw, dispatch]
    simp only [h3]
    norm_num
    by_cases hvv : s.V (nib2 w) = s.V (nib1 w)
    · simp [hvv, h3]
    · simp [hvv, h3]
  · exact absurd hundoc (by simp [documented, h3])
  · exact absurd hundoc (by simp [documented, h3])
  · -- family 8, undocumented low nibble: stall
    rw [documented] at hundoc
    simp [h3] at hundoc
    obtain ⟨⟨⟨⟨⟨⟨⟨⟨g0, g1⟩, g2⟩, g3⟩, g4⟩, g5⟩, g6⟩, g7⟩, ge⟩ := hundoc
    rw [execute, hw, dispatch]
    simp only [h3]
    norm_num [g0, g1, g2, g3, g4, g5, g6, g7, ge]
    simp [h3, pc_net s.PC hpc]
  · -- family 9: executed as SNE VX, VY whatever the low nibble
    rw [execute, hw, dispatch]
    simp only [h3]
    norm_num
    by_cases hvv : s.V (nib2 w) = s.V (nib1 w)
    · simp [hvv, h3]
    · simp [hvv, h3]
  · exact absurd hundoc (by simp [documented, h3])
  · exact absurd hundoc (by simp [documented, h3])
  · exact absurd hundoc (by simp [documented, h3])
  · exact absurd hundoc (by simp [documented, h3])
  · -- family E, unknown low byte: falls through with PC advanced
    rw [documented] at hundoc
    simp [h3] at hundoc
    obtain ⟨ga, gb⟩ := hundoc
    rw [execute, hw, dispatch]
    simp only [h3]
    norm_num [ga, gb]
  · -- family F, unknown low byte: stall
    rw [documented] at hundoc
    simp [h3] at hundoc
    obtain ⟨⟨⟨⟨⟨⟨⟨⟨g1, g2⟩, g3⟩, g4⟩, g5⟩, g6⟩, g7⟩, g8⟩, g9⟩ := hundoc
    rw [execute, hw, dispatch]
    simp only [h3]
    norm_num [g1, g2, g3, g4, g5, g6, g7, g8, g9]
    simp [h3, pc_net s.PC hpc]

/-- A concrete machine whose next instruction word is `E000`, which is not a
documented opcode. -/
def unknownDemoState : Chip8 where
  Memory := fun a => if a = 0x200 then 0xE0 else 0
  V := fun _ => 0
  PC := 0x200
  I := 0
  SP := 0
  DelayTimer := 0
  SoundTimer := 0
  TimeCounter := 0
  Keyboard := fun _ => false

/-- Claim C1 counterexample: the undocumented word `E000` is executed with no
rewind - PC ends at 0x202, not back at 0x200 as the claim requires. -/
theorem C1_unknown_opcode_counterexample :
    documented 0xE000 = false ∧ fetch unknownDemoState = 0xE000 ∧
      unknownDemoState.PC = 0x200 ∧ (execute 0 unknownDemoState).PC = 0x202 :=
  ⟨by decide, by decide, by decide, by decide⟩

/-- Claim C1 witness: the amended statement applied to the `E000` machine. -/
theorem C1_unknown_opcode_witness :
    fetch unknownDemoState = 0xE000 ∧ unknownDemoState.PC < 65536 ∧
      documented 0xE000 = false ∧
      ((execute 0 unknownDemoState).Memory = unknownDemoState.Memory ∧
        (execute 0 unknownDemoState).V = unknownDemoState.V ∧
        (execute 0 unknownDemoState).I = unknownDemoState.I ∧
        (execute 0 unknownDemoState).SP = unknownDemoState.SP ∧
        (execute 0 unknownDemoState).DelayTimer = unknownDemoState.DelayTimer ∧
        (execute 0 unknownDemoState).SoundTimer = unknownDemoState.SoundTimer ∧
        (execute 0 unknownDemoState).Keyboard = unknownDemoState.Keyboard ∧
        (execute 0 unknownDemoState).TimeCounter = unknownDemoState.TimeCounter ∧
        ((nib3 0xE000 = 8 ∨ nib3 0xE000 = 15) →
          (execute 0 unknownDemoState).PC = unknownDemoState.PC) ∧
        (nib3 0xE000 = 14 →
          (execute 0 unknownDemoState).PC = wrap16 (unknownDemoState.PC + 2)) ∧
        (nib3 0xE000 = 5 → (execute 0 unknownDemoState).PC =
          (if unknownDemoState.V (nib2 0xE000) = unknownDemoState.V (nib1 0xE000)
           then wrap16 (wrap16 (unknownDemoState.PC + 2) + 2)
           else wrap16 (unknownDemoState.PC + 2))) ∧
        (nib3 0xE000 = 9 → (execute 0 unknownDemoState).PC =
          (if unknownDemoState.V (nib2 0xE000) = unknownDemoState.V (nib1 0xE000)
           then wrap16 (unknownDemoState.PC + 2)
           else wrap16 (wrap16 (unknownDemoState.PC + 2) + 2)))) :=
  ⟨by decide, by decide, by decide,
   C1_unknown_opcode 0 0xE000 unknownDemoState (by decide) (by decide) (by decide)⟩

/-! ### The packed framebuffer, the splash screen and claim C9 -/

theorem mask_shift_pow (k : Nat) (hk : k < 8) : (0x80 : Nat) >>> k = 2 ^ (7 - k) := by
  rw [Nat.shiftRight_eq_div_pow]
  have h : (0x80 : Nat) = 2 ^ 7 := by norm_num
  rw [h, Nat.pow_div (by omega) (by omega)]

theorem testBit_255 (j : Nat) (hj : j < 8) : Nat.testBit 255 j = true := by
  have h : (255 : Nat) = 2 ^ 8 - 1 := by norm_num
  rw [h, Nat.testBit_two_pow_sub_one]
  simpa using hj

theorem videoGet_testBit (mem : Nat → Nat) (b : Nat) :
    videoGet mem b = (mem (DisplayAddress + b / 8)).testBit (7 - b % 8) := by
  rw [videoGet, mask_shift_pow (b % 8) (Nat.mod_lt _ (by norm_num)), Nat.and_two_pow]
  rcases hb : (mem (DisplayAddress + b / 8)).testBit (7 - b % 8) <;> simp [hb]

theorem videoGet_videoSet_same (mem : Nat → Nat) (b : Nat) (v : Bool) :
    videoGet (videoSet mem b v) b = v := by
  have hm : b % 8 < 8 := Nat.mod_lt _ (by norm_num)
  rw [videoGet_testBit, videoSet, Function.update_same, mask_shift_pow (b % 8) hm]
  have h255 : Nat.testBit 255 (7 - b % 8) = true := testBit_255 _ (by omega)
  rcases v with _ | _ <;> simp [Nat.testBit_two_pow, h255]

theorem videoGet_videoSet_ne (mem : Nat → Nat) (b b' : Nat) (v : Bool)
    (hne : b ≠ b') :
    videoGet (videoSet mem b v) b' = videoGet mem b' := by
  have hm : b % 8 < 8 := Nat.mod_lt _ (by norm_num)
  have hm' : b' % 8 < 8 := Nat.mod_lt _ (by norm_num)
  by_cases hbyte : b / 8 = b' / 8
  · have hbit : b % 8 ≠ b' % 8 := by omega
    rw [videoGet_testBit, videoSet, hbyte, Function.update_same,
        mask_shift_pow (b % 8) hm, videoGet_testBit]
    have hkk : ¬ ((7 : Nat) - b % 8 = 7 - b' % 8) := by omega
    have hkk2 : ¬ ((7 : Nat) - b' % 8 = 7 - b % 8) := by omega
    have h255 : Nat.testBit 255 (7 - b' % 8) = true := testBit_255 _ (by omega)
    rcases v with _ | _ <;> simp [Nat.testBit_two_pow, h255, hkk, hkk2]
  · rw [videoGet_testBit, videoSet, Function.update_noteq (by omega), ← videoGet_testBit]

theorem videoSet_low (mem : Nat → Nat) (b a : Nat) (v : Bool) (ha : a < DisplayAddress) :
    videoSet mem b v a = mem a := by
  rw [videoSet, Function.update_noteq]
  have h : DisplayAddress ≤ DisplayAddress + b / 8 := Nat.le_add_right _ _
  omega


theorem colFold_get (x x0 y0 : Nat) (hx : x < 64) (hx0 : x0 < 64) :
    ∀ (ys : List Nat) (m : Nat → Nat), (∀ t, t ∈ ys → t < 32) →
      videoGet (ys.foldl (fun m y => videoSet m (y * 64 + x) (splashPixel x y)) m)
          (y0 * 64 + x0) =
        (if x0 = x ∧ y0 ∈ ys then splashPixel x y0
         else videoGet m (y0 * 64 + x0)) := by
  intro ys
  induction ys with
  | nil => intro m _; simp
  | cons y ys ih =>
    intro m hys
    rw [List.foldl_cons, ih _ (fun t ht => hys t (List.mem_cons_of_mem y ht))]
    by_cases hcase : x0 = x ∧ y0 ∈ ys
    · rw [if_pos hcase, if_pos ⟨hcase.1, List.mem_cons_of_mem y hcase.2⟩]
    · rw [if_neg hcase]
      by_cases hsame : x0 = x ∧ y0 = y
      · obtain ⟨rfl, rfl⟩ := hsame
        rw [videoGet_videoSet_same, if_pos ⟨rfl, List.mem_cons_self _ _⟩]
      · rw [videoGet_videoSet_ne]
        · rw [if_neg]
          rintro ⟨h1, h2⟩
          rcases List.mem_cons.mp h2 with rfl | hmem
          · exact hsame ⟨h1, rfl⟩
          · exact hcase ⟨h1, hmem⟩
        · intro heq
          exact hsame ⟨by omega, by omega⟩

theorem colFold_low (x a : Nat) (ha : a < DisplayAddress) :
    ∀ (ys : List Nat) (m : Nat → Nat),
      (ys.foldl (fun m y => videoSet m (y * 64 + x) (splashPixel x y)) m) a = m a := by
  intro ys
  induction ys with
  | nil => intro m; rfl
  | cons y ys ih =>
    intro m
    rw [List.foldl_cons, ih, videoSet_low _ _ _ _ ha]

theorem rowFold_get (x0 y0 : Nat) (hx0 : x0 < 64) (hy0 : y0 < 32) :
    ∀ (xs : List Nat) (m : Nat → Nat), (∀ t, t ∈ xs → t < 64) →
      videoGet (xs.foldl (fun m x => (List.range 32).foldl
          (fun m y => videoSet m (y * 64 + x) (splashPixel x y)) m) m) (y0 * 64 + x0) =
        (if x0 ∈ xs then splashPixel x0 y0 else videoGet m (y0 * 64 + x0)) := by
  intro xs
  induction xs with
  | nil => intro m _; simp
  | cons x xs ih =>
    intro m hxs
    rw [List.foldl_cons, ih _ (fun t ht => hxs t (List.mem_cons_of_mem x ht))]
    by_cases hcase : x0 ∈ xs
    · rw [if_pos hcase, if_pos (List.mem_cons_of_mem x hcase)]
    · rw [if_neg hcase]
      rw [colFold_get x x0 y0 (hxs x (List.mem_cons_self x xs)) hx0 (List.range 32) m
          (fun t ht => List.mem_range.mp ht)]
      by_cases hxx : x0 = x
      · subst hxx
        rw [if_pos ⟨rfl, List.mem_range.mpr hy0⟩, if_pos (List.mem_cons_self x0 xs)]
      · rw [if_neg (fun hc => hxx hc.1), if_neg]
        intro hc
        rcases List.mem_cons.mp hc with h | h
        · exact hxx h
        · exact hcase h

theorem rowFold_low (a : Nat) (ha : a < DisplayAddress) :
    ∀ (xs : List Nat) (m : Nat → Nat),
      (xs.foldl (fun m x => (List.range 32).foldl
          (fun m y => videoSet m (y * 64 + x) (splashPixel x y)) m) m) a = m a := by
  intro xs
  induction xs with
  | nil => intro m; rfl
  | cons x xs ih =>
    intro m
    rw [List.foldl_cons, ih, colFold_low x a ha]

theorem initState_pixel (x y : Nat) (hx : x < 64) (hy : y < 32) :
    GetPixel initState x y = splashPixel x y := by
  rw [GetPixel, initState]
  simp only [ScreenWidth, ScreenHeight]
  rw [rowFold_get x y hx hy (List.range 64) _ (fun t ht => List.mem_range.mp ht)]
  rw [if_pos (List.mem_range.mpr hx)]

theorem initState_low (a : Nat) (ha : a < DisplayAddress) :
    initState.Memory a = resetState.Memory a := by
  rw [initState]
  simp only [ScreenWidth, ScreenHeight]
  rw [rowFold_low a ha (List.range 64) resetState.Memory]

/-- Claim C9 (amended): immediately after construction the machine equals the
`Reset` state - font at the base of memory, all other non-display memory
zero, registers, keyboard, SP, I and timers zero, `PC = 0x200` - except that
the framebuffer holds the splash-screen image rather than being blank. -/
theorem C9_construction (x y : Nat) (hx : x < 64) (hy : y < 32) :
    GetPixel initState x y = splashPixel x y ∧
    initState.PC = 0x200 ∧ initState.SP = 0 ∧ initState.I = 0 ∧
    initState.DelayTimer = 0 ∧ initState.SoundTimer = 0 ∧
    (∀ i, i < 16 → initState.V i = 0) ∧
    (∀ k, k < 16 → initState.Keyboard k = false) ∧
    (∀ a, a < 80 → initState.Memory a = Characters.getD a 0) ∧
    (∀ a, 80 ≤ a → a < 0xf00 → initState.Memory a = 0) := by
  refine ⟨initState_pixel x y hx hy, rfl, rfl, rfl, rfl, rfl,
    fun i _ => rfl, fun k _ => rfl, ?_, ?_⟩
  · intro a ha
    rw [initState_low a (by show a < 0xf00; omega)]
    show (if a < 80 then Characters.getD a 0 else 0) = Characters.getD a 0
    rw [if_pos ha]
  · intro a ha1 ha2
    rw [initState_low a (by show a < 0xf00; omega)]
    show (if a < 80 then Characters.getD a 0 else 0) = 0
    rw [if_neg (by omega)]

/-- Claim C9 counterexample: pixel (12, 11) reads set immediately after
construction (part of the splash-screen logo), so the freshly constructed
machine is not the blank-screen `Reset` state. -/
theorem C9_construction_counterexample : GetPixel initState 12 11 = true := by
  rw [initState_pixel 12 11 (by omega) (by omega)]
  decide

/-- Claim C9 witness: the amended statement applied at pixel (12, 11). -/
theorem C9_construction_witness :
    (12 : Nat) < 64 ∧ (11 : Nat) < 32 ∧
      (GetPixel initState 12 11 = splashPixel 12 11 ∧
        initState.PC = 0x200 ∧ initState.SP = 0 ∧ initState.I = 0 ∧
        initState.DelayTimer = 0 ∧ initState.SoundTimer = 0 ∧
        (∀ i, i < 16 → initState.V i = 0) ∧
        (∀ k, k < 16 → initState.Keyboard k = false) ∧
        (∀ a, a < 80 → initState.Memory a = Characters.getD a 0) ∧
        (∀ a, 80 ≤ a → a < 0xf00 → initState.Memory a = 0)) :=
  ⟨by omega, by omega, C9_construction 12 11 (by omega) (by omega)⟩

/-! ### Claims C3 and C5: the DXYN sprite draw -/

/-- Pixel (`x'`, `y'`) is covered by a set sprite bit among columns
`[j0, j0 + cnt)` of the sprite row byte `sprite` drawn at row `y` starting at
column `startX` (MSB first). -/
def colHit (y startX sprite j0 cnt x' y' : Nat) : Prop :=
  ∃ j < j0 + cnt, j0 ≤ j ∧ y' = y ∧ x' = (startX + j) % 64 ∧ sprite &&& (0x80 >>> j) ≠ 0

/-- Some set sprite bit among columns `[j0, j0 + cnt)` lands on a set pixel
of `mem`. -/
def colCollide (mem : Nat → Nat) (y startX sprite j0 cnt : Nat) : Prop :=
  ∃ j < j0 + cnt, j0 ≤ j ∧ sprite &&& (0x80 >>> j) ≠ 0 ∧
    videoGet mem (y * 64 + (startX + j) % 64) = true

instance (y startX sprite j0 cnt x' y' : Nat) :
    Decidable (colHit y startX sprite j0 cnt x' y') := by
  unfold colHit; infer_instance

instance (mem : Nat → Nat) (y startX sprite j0 cnt : Nat) :
    Decidable (colCollide mem y startX sprite j0 cnt) := by
  unfold colCollide; infer_instance

theorem colStep_spec (y startX sprite j : Nat) (t : Chip8) :
    ((colStep y startX sprite j t).Memory =
      videoSet t.Memory (y * 64 + (startX + j) % 64)
        (xor (videoGet t.Memory (y * 64 + (startX + j) % 64))
             (sprite &&& (0x80 >>> j) != 0))) ∧
    ((colStep y startX sprite j t).V = Function.update t.V 15
      (if sprite &&& (0x80 >>> j) ≠ 0 ∧
          videoGet t.Memory (y * 64 + (startX + j) % 64) = true
       then 1 else t.V 15)) ∧
    (colStep y startX sprite j t).PC = t.PC ∧
    (colStep y startX sprite j t).I = t.I ∧
    (colStep y startX sprite j t).SP = t.SP ∧
    (colStep y startX sprite j t).DelayTimer = t.DelayTimer ∧
    (colStep y startX sprite j t).SoundTimer = t.SoundTimer ∧
    (colStep y startX sprite j t).TimeCounter = t.TimeCounter ∧
    (colStep y startX sprite j t).Keyboard = t.Keyboard := by
  rw [colStep]
  simp only [ScreenWidth, videoGet_videoSet_same]
  by_cases hscr : videoGet t.Memory (y * 64 + (startX + j) % 64) = true <;>
    by_cases hspr : sprite &&& (0x80 >>> j) ≠ 0
  · have hb : (sprite &&& (0x80 >>> j) != 0) = true := by simpa using hspr
    simp [hscr, hb, hspr]
  · have hb : (sprite &&& (0x80 >>> j) != 0) = false := by simpa using hspr
    simp [hscr, hb, hspr, Function.update_eq_self]
  · have hb : (sprite &&& (0x80 >>> j) != 0) = true := by simpa using hspr
    have hscr2 : videoGet t.Memory (y * 64 + (startX + j) % 64) = false := by
      simpa using hscr
    simp [hscr2, hb, hspr, Function.update_eq_self]
  · have hb : (sprite &&& (0x80 >>> j) != 0) = false := by simpa using hspr
    have hscr2 : videoGet t.Memory (y * 64 + (startX + j) % 64) = false := by
      simpa using hscr
    simp [hscr2, hb, hspr, Function.update_eq_self]


theorem colHit_empty (y startX sprite j0 x' y' : Nat) :
    ¬ colHit y startX sprite j0 0 x' y' := by
  rintro ⟨j, hj1, hj2, _⟩
  omega

theorem colCollide_empty (mem : Nat → Nat) (y startX sprite j0 : Nat) :
    ¬ colCollide mem y startX sprite j0 0 := by
  rintro ⟨j, hj1, hj2, _⟩
  omega

theorem colHit_split (y startX sprite j0 c x' y' : Nat) (hj0 : j0 < 8) :
    colHit y startX sprite j0 (c + 1) x' y' ↔
      ((y' = y ∧ x' = (startX + j0) % 64 ∧ sprite &&& (0x80 >>> j0) ≠ 0) ∨
        colHit y startX sprite (j0 + 1) c x' y') := by
  constructor
  · rintro ⟨j, hj1, hj2, hy, hx, hbit⟩
    rcases Nat.eq_or_lt_of_le hj2 with rfl | hlt
    · exact Or.inl ⟨hy, hx, hbit⟩
    · exact Or.inr ⟨j, by omega, by omega, hy, hx, hbit⟩
  · rintro (⟨hy, hx, hbit⟩ | ⟨j, hj1, hj2, hy, hx, hbit⟩)
    · exact ⟨j0, by omega, le_refl _, hy, hx, hbit⟩
    · exact ⟨j, by omega, by omega, hy, hx, hbit⟩

theorem colCollide_split (mem : Nat → Nat) (y startX sprite j0 c : Nat) (hj0 : j0 < 8) :
    colCollide mem y startX sprite j0 (c + 1) ↔
      ((sprite &&& (0x80 >>> j0) ≠ 0 ∧
          videoGet mem (y * 64 + (startX + j0) % 64) = true) ∨
        colCollide mem y startX sprite (j0 + 1) c) := by
  constructor
  · rintro ⟨j, hj1, hj2, hbit, hpix⟩
    rcases Nat.eq_or_lt_of_le hj2 with rfl | hlt
    · exact Or.inl ⟨hbit, hpix⟩
    · exact Or.inr ⟨j, by omega, by omega, hbit, hpix⟩
  · rintro (⟨hbit, hpix⟩ | ⟨j, hj1, hj2, hbit, hpix⟩)
    · exact ⟨j0, by omega, le_refl _, hbit, hpix⟩
    · exact ⟨j, by omega, by omega, hbit, hpix⟩

theorem colLoop_spec (y startX sprite : Nat) (hy : y < 32) :
    ∀ cnt j0 t, j0 + cnt ≤ 8 →
      (∀ a, a < 0xf00 → (colLoop y startX sprite j0 cnt t).Memory a = t.Memory a) ∧
      (∀ x' y', x' < 64 → y' < 32 →
        videoGet (colLoop y startX sprite j0 cnt t).Memory (y' * 64 + x') =
          xor (videoGet t.Memory (y' * 64 + x'))
            (decide (colHit y startX sprite j0 cnt x' y'))) ∧
      ((colLoop y startX sprite j0 cnt t).V =
        Function.update t.V 15
          (if colCollide t.Memory y startX sprite j0 cnt then 1 else t.V 15)) ∧
      (colLoop y startX sprite j0 cnt t).PC = t.PC ∧
      (colLoop y startX sprite j0 cnt t).I = t.I ∧
      (colLoop y startX sprite j0 cnt t).SP = t.SP ∧
      (colLoop y startX sprite j0 cnt t).DelayTimer = t.DelayTimer ∧
      (colLoop y startX sprite j0 cnt t).SoundTimer = t.SoundTimer ∧
      (colLoop y startX sprite j0 cnt t).TimeCounter = t.TimeCounter ∧
      (colLoop y startX sprite j0 cnt t).Keyboard = t.Keyboard := by
  intro cnt
  induction cnt with
  | zero =>
    intro j0 t _
    have h0 : colLoop y startX sprite j0 0 t = t := rfl
    rw [h0]
    refine ⟨fun a _ => rfl, fun x' y' _ _ => ?_, ?_, rfl, rfl, rfl, rfl, rfl, rfl, rfl⟩
    · rw [decide_eq_false (colHit_empty y startX sprite j0 x' y')]
      simp
    · rw [if_neg (colCollide_empty t.Memory y startX sprite j0)]
      rw [Function.update_eq_self]
  | succ c ih =>
    intro j0 t hle
    have hj0 : j0 < 8 := by omega
    obtain ⟨Sm, Sv, Spc, Si, Ssp, Sdt, Sst, Stc, Skb⟩ := colStep_spec y startX sprite j0 t
    obtain ⟨Im, Ip, Iv, Ipc, Ii, Isp, Idt, Ist, Itc, Ikb⟩ :=
      ih (j0 + 1) (colStep y startX sprite j0 t) (by omega)
    have hstep : colLoop y startX sprite j0 (c + 1) t =
        colLoop y startX sprite (j0 + 1) c (colStep y startX sprite j0 t) := rfl
    rw [hstep]
    have hx0 : (startX + j0) % 64 < 64 := Nat.mod_lt _ (by norm_num)
    refine ⟨?_, ?_, ?_, ?_, ?_, ?_, ?_, ?_, ?_, ?_⟩
    · intro a ha
      rw [Im a ha, Sm, videoSet_low _ _ _ _ ha]
    · intro x' y' hx' hy'
      rw [Ip x' y' hx' hy']
      by_cases hpos : x' = (startX + j0) % 64 ∧ y' = y
      · simp only [hpos.1, hpos.2]
        rw [Sm, videoGet_videoSet_same]
        have hnot : ¬ colHit y startX sprite (j0 + 1) c ((startX + j0) % 64) y := by
          rintro ⟨j, hj1, hj2, _, hx, _⟩
          omega
        rw [decide_eq_false hnot]
        have hd : decide (colHit y startX sprite j0 (c + 1) ((startX + j0) % 64) y) =
            (sprite &&& (0x80 >>> j0) != 0) := by
          by_cases hbit : sprite &&& (0x80 >>> j0) ≠ 0
          · have hwit : colHit y startX sprite j0 (c + 1) ((startX + j0) % 64) y :=
              ⟨j0, by omega, le_refl _, rfl, rfl, hbit⟩
            simp [hwit, bne_iff_ne, hbit]
          · have hnP : ¬ colHit y startX sprite j0 (c + 1) ((startX + j0) % 64) y := by
              rintro ⟨j, hj1, hj2, _, hx, hbitj⟩
              rcases Nat.eq_or_lt_of_le hj2 with rfl | hlt
              · exact hbit hbitj
              · omega
            have hz : sprite &&& (0x80 >>> j0) = 0 := not_ne_iff.mp hbit
            simp [hnP, hz]
        rw [hd]
        simp
      · rw [Sm, videoGet_videoSet_ne _ _ _ _ (by omega)]
        have hiff : colHit y startX sprite (j0 + 1) c x' y' ↔
            colHit y startX sprite j0 (c + 1) x' y' := by
          rw [colHit_split y startX sprite j0 c _ _ hj0]
          constructor
          · exact Or.inr
          · rintro (⟨hy2, hx2, _⟩ | h)
            · exact absurd ⟨hx2, hy2⟩ hpos
            · exact h
        rw [decide_eq_decide.mpr hiff]
    · rw [Iv, Sv, Function.update_idem, Function.update_same]
      have hcc : colCollide (colStep y startX sprite j0 t).Memory y startX sprite (j0 + 1) c ↔
          colCollide t.Memory y startX sprite (j0 + 1) c := by
        constructor
        · rintro ⟨j, hj1, hj2, hbit, hpix⟩
          refine ⟨j, hj1, hj2, hbit, ?_⟩
          rw [Sm, videoGet_videoSet_ne _ _ _ _ (by omega)] at hpix
          exact hpix
        · rintro ⟨j, hj1, hj2, hbit, hpix⟩
          refine ⟨j, hj1, hj2, hbit, ?_⟩
          rw [Sm, videoGet_videoSet_ne _ _ _ _ (by omega)]
          exact hpix
      have hsplit := colCollide_split t.Memory y startX sprite j0 c hj0
      have harg : (if colCollide (colStep y startX sprite j0 t).Memory y startX sprite
              (j0 + 1) c then (1 : Nat)
            else if sprite &&& (0x80 >>> j0) ≠ 0 ∧
                videoGet t.Memory (y * 64 + (startX + j0) % 64) = true then 1 else t.V 15) =
          (if colCollide t.Memory y startX sprite j0 (c + 1) then 1 else t.V 15) := by
        by_cases h1 : colCollide t.Memory y startX sprite (j0 + 1) c
        · rw [if_pos (hcc.mpr h1), if_pos (hsplit.mpr (Or.inr h1))]
        · rw [if_neg (fun hc => h1 (hcc.mp hc))]
          by_cases h0 : sprite &&& (0x80 >>> j0) ≠ 0 ∧
              videoGet t.Memory (y * 64 + (startX + j0) % 64) = true
          · rw [if_pos h0, if_pos (hsplit.mpr (Or.inl h0))]
          · rw [if_neg h0, if_neg]
            intro hc
            rcases hsplit.mp hc with h | h
            exacts [h0 h, h1 h]
      rw [harg]
    · rw [Ipc, Spc]
    · rw [Ii, Si]
    · rw [Isp, Ssp]
    · rw [Idt, Sdt]
    · rw [Ist, Sst]
    · rw [Itc, Stc]
    · rw [Ikb, Skb]


/-- Pixel (`x'`, `y'`) is covered by a set bit among sprite rows
`[i0, i0 + cnt)` of the `DXYN` draw read from machine `t`: row `i` is byte
`t.Memory (t.I + i)`, drawn at row `(VY + i) % 32`, columns `(VX + j) % 64`
for bit `j` (MSB first). -/
def rowHit (t : Chip8) (X Y i0 cnt x' y' : Nat) : Prop :=
  ∃ i < i0 + cnt, i0 ≤ i ∧ y' = (t.V Y + i) % 32 ∧
    ∃ j < 8, x' = (t.V X + j) % 64 ∧ t.Memory (t.I + i) &&& (0x80 >>> j) ≠ 0

/-- Some set sprite bit among rows `[i0, i0 + cnt)` of the `DXYN` draw lands
on a pixel of `t` that is already set. -/
def rowCollide (t : Chip8) (X Y i0 cnt : Nat) : Prop :=
  ∃ i < i0 + cnt, i0 ≤ i ∧ ∃ j < 8,
    t.Memory (t.I + i) &&& (0x80 >>> j) ≠ 0 ∧
    videoGet t.Memory (((t.V Y + i) % 32) * 64 + (t.V X + j) % 64) = true

instance (t : Chip8) (X Y i0 cnt x' y' : Nat) :
    Decidable (rowHit t X Y i0 cnt x' y') := by
  unfold rowHit; infer_instance

instance (t : Chip8) (X Y i0 cnt : Nat) : Decidable (rowCollide t X Y i0 cnt) := by
  unfold rowCollide; infer_instance

theorem rowHit_empty (t : Chip8) (X Y i0 x' y' : Nat) : ¬ rowHit t X Y i0 0 x' y' := by
  rintro ⟨i, hi1, hi2, _⟩
  omega

theorem rowCollide_empty (t : Chip8) (X Y i0 : Nat) : ¬ rowCollide t X Y i0 0 := by
  rintro ⟨i, hi1, hi2, _⟩
  omega

theorem rowHit_one (t : Chip8) (X Y i0 x' y' : Nat) :
    rowHit t X Y i0 1 x' y' ↔
      colHit ((t.V Y + i0) % 32) (t.V X) (t.Memory (t.I + i0)) 0 8 x' y' := by
  constructor
  · rintro ⟨i, hi1, hi2, hy, j, hj, hx, hbit⟩
    obtain rfl : i = i0 := by omega
    exact ⟨j, by omega, by omega, hy, hx, hbit⟩
  · rintro ⟨j, hj1, _, hy, hx, hbit⟩
    exact ⟨i0, by omega, le_refl _, hy, j, by omega, hx, hbit⟩

theorem rowCollide_one (t : Chip8) (X Y i0 : Nat) :
    rowCollide t X Y i0 1 ↔
      colCollide t.Memory ((t.V Y + i0) % 32) (t.V X) (t.Memory (t.I + i0)) 0 8 := by
  constructor
  · rintro ⟨i, hi1, hi2, j, hj, hbit, hpix⟩
    obtain rfl : i = i0 := by omega
    exact ⟨j, by omega, by omega, hbit, hpix⟩
  · rintro ⟨j, hj1, _, hbit, hpix⟩
    exact ⟨i0, by omega, le_refl _, j, hj1, hbit, hpix⟩

theorem rowHit_split (t : Chip8) (X Y i0 c x' y' : Nat) :
    rowHit t X Y i0 (c + 1) x' y' ↔
      (rowHit t X Y i0 1 x' y' ∨ rowHit t X Y (i0 + 1) c x' y') := by
  constructor
  · rintro ⟨i, hi1, hi2, hy, hj⟩
    rcases Nat.eq_or_lt_of_le hi2 with rfl | hlt
    · exact Or.inl ⟨i0, by omega, le_refl _, hy, hj⟩
    · exact Or.inr ⟨i, by omega, by omega, hy, hj⟩
  · rintro (⟨i, hi1, hi2, hy, hj⟩ | ⟨i, hi1, hi2, hy, hj⟩)
    · exact ⟨i, by omega, hi2, hy, hj⟩
    · exact ⟨i, by omega, by omega, hy, hj⟩

theorem rowCollide_split (t : Chip8) (X Y i0 c : Nat) :
    rowCollide t X Y i0 (c + 1) ↔
      (rowCollide t X Y i0 1 ∨ rowCollide t X Y (i0 + 1) c) := by
  constructor
  · rintro ⟨i, hi1, hi2, hj⟩
    rcases Nat.eq_or_lt_of_le hi2 with rfl | hlt
    · exact Or.inl ⟨i0, by omega, le_refl _, hj⟩
    · exact Or.inr ⟨i, by omega, by omega, hj⟩
  · rintro (⟨i, hi1, hi2, hj⟩ | ⟨i, hi1, hi2, hj⟩)
    · exact ⟨i, by omega, hi2, hj⟩
    · exact ⟨i, by omega, by omega, hj⟩

theorem rowHit_congr (t t1 : Chip8) (X Y i0 cnt x' y' : Nat)
    (hVX : t1.V X = t.V X) (hVY : t1.V Y = t.V Y) (hII : t1.I = t.I)
    (hmem : ∀ i, i0 ≤ i → i < i0 + cnt → t1.Memory (t.I + i) = t.Memory (t.I + i)) :
    rowHit t1 X Y i0 cnt x' y' ↔ rowHit t X Y i0 cnt x' y' := by
  constructor
  · rintro ⟨i, hi1, hi2, hy, j, hj, hx, hbit⟩
    rw [hVY] at hy
    rw [hVX] at hx
    rw [hII, hmem i hi2 hi1] at hbit
    exact ⟨i, hi1, hi2, hy, j, hj, hx, hbit⟩
  · rintro ⟨i, hi1, hi2, hy, j, hj, hx, hbit⟩
    rw [← hVY] at hy
    rw [← hVX] at hx
    rw [← hmem i hi2 hi1, ← hII] at hbit
    exact ⟨i, hi1, hi2, hy, j, hj, hx, hbit⟩


theorem rowLoop_spec (X Y : Nat) (hX : X ≠ 15) (hY : Y ≠ 15) :
    ∀ cnt i0 t, i0 + cnt ≤ 15 → t.I + (i0 + cnt) ≤ 0xf00 →
      (∀ a, a < 0xf00 → (rowLoop X Y i0 cnt t).Memory a = t.Memory a) ∧
      (∀ x' y', x' < 64 → y' < 32 →
        videoGet (rowLoop X Y i0 cnt t).Memory (y' * 64 + x') =
          xor (videoGet t.Memory (y' * 64 + x')) (decide (rowHit t X Y i0 cnt x' y'))) ∧
      ((rowLoop X Y i0 cnt t).V = Function.update t.V 15
        (if rowCollide t X Y i0 cnt then 1 else t.V 15)) ∧
      (rowLoop X Y i0 cnt t).PC = t.PC ∧
      (rowLoop X Y i0 cnt t).I = t.I ∧
      (rowLoop X Y i0 cnt t).SP = t.SP ∧
      (rowLoop X Y i0 cnt t).DelayTimer = t.DelayTimer ∧
      (rowLoop X Y i0 cnt t).SoundTimer = t.SoundTimer ∧
      (rowLoop X Y i0 cnt t).TimeCounter = t.TimeCounter ∧
      (rowLoop X Y i0 cnt t).Keyboard = t.Keyboard := by
  intro cnt
  induction cnt with
  | zero =>
    intro i0 t _ _
    have h0 : rowLoop X Y i0 0 t = t := rfl
    rw [h0]
    refine ⟨fun a _ => rfl, fun x' y' _ _ => ?_, ?_, rfl, rfl, rfl, rfl, rfl, rfl, rfl⟩
    · rw [decide_eq_false (rowHit_empty t X Y i0 x' y')]
      simp
    · rw [if_neg (rowCollide_empty t X Y i0)]
      rw [Function.update_eq_self]
  | succ c ih =>
    intro i0 t hle hI
    have hy0 : (t.V Y + i0) % 32 < 32 := Nat.mod_lt _ (by norm_num)
    obtain ⟨CLm, CLp, CLv, CLpc, CLi, CLsp, CLdt, CLst, CLtc, CLkb⟩ :=
      colLoop_spec ((t.V Y + i0) % 32) (t.V X) (t.Memory (t.I + i0)) hy0 8 0 t (by omega)
    have hrstep : rowStep X Y i0 t =
        colLoop ((t.V Y + i0) % 32) (t.V X) (t.Memory (t.I + i0)) 0 8 t := rfl
    have hstep : rowLoop X Y i0 (c + 1) t = rowLoop X Y (i0 + 1) c (rowStep X Y i0 t) := rfl
    rw [hstep, hrstep]
    set t1 := colLoop ((t.V Y + i0) % 32) (t.V X) (t.Memory (t.I + i0)) 0 8 t with ht1
    obtain ⟨Im, Ip, Iv, Ipc, Ii, Isp, Idt, Ist, Itc, Ikb⟩ :=
      ih (i0 + 1) t1 (by omega) (by rw [CLi]; omega)
    have hVX1 : t1.V X = t.V X := by rw [CLv, Function.update_noteq hX]
    have hVY1 : t1.V Y = t.V Y := by rw [CLv, Function.update_noteq hY]
    have hmem1 : ∀ i, i0 + 1 ≤ i → i < i0 + 1 + c → t1.Memory (t.I + i) = t.Memory (t.I + i) :=
      fun i _ hi2 => CLm (t.I + i) (by omega)
    have hHcongr : ∀ x' y', rowHit t1 X Y (i0 + 1) c x' y' ↔ rowHit t X Y (i0 + 1) c x' y' :=
      fun x' y' => rowHit_congr t t1 X Y (i0 + 1) c x' y' hVX1 hVY1 CLi hmem1
    refine ⟨?_, ?_, ?_, ?_, ?_, ?_, ?_, ?_, ?_, ?_⟩
    · intro a ha
      rw [Im a ha, CLm a ha]
    · intro x' y' hx' hy'
      rw [Ip x' y' hx' hy', CLp x' y' hx' hy']
      rw [decide_eq_decide.mpr (hHcongr x' y')]
      rw [Bool.xor_assoc]
      have hmerge : (decide (colHit ((t.V Y + i0) % 32) (t.V X) (t.Memory (t.I + i0)) 0 8 x' y') ^^
          decide (rowHit t X Y (i0 + 1) c x' y')) =
          decide (rowHit t X Y i0 (c + 1) x' y') := by
        by_cases hA : colHit ((t.V Y + i0) % 32) (t.V X) (t.Memory (t.I + i0)) 0 8 x' y'
        · by_cases hB : rowHit t X Y (i0 + 1) c x' y'
          · exfalso
            obtain ⟨_, _, _, hyA, _⟩ := hA
            obtain ⟨i, hi1, hi2, hyB, _⟩ := hB
            omega
          · have hR : rowHit t X Y i0 (c + 1) x' y' :=
              (rowHit_split t X Y i0 c x' y').mpr (Or.inl ((rowHit_one t X Y i0 x' y').mpr hA))
            simp [hA, hB, hR]
        · by_cases hB : rowHit t X Y (i0 + 1) c x' y'
          · have hR : rowHit t X Y i0 (c + 1) x' y' :=
              (rowHit_split t X Y i0 c x' y').mpr (Or.inr hB)
            simp [hA, hB, hR]
          · have hR : ¬ rowHit t X Y i0 (c + 1) x' y' := by
              intro hc
              rcases (rowHit_split t X Y i0 c x' y').mp hc with h | h
              · exact hA ((rowHit_one t X Y i0 x' y').mp h)
              · exact hB h
            simp [hA, hB, hR]
      rw [hmerge]
    · rw [Iv, CLv, Function.update_idem, Function.update_same]
      have hcc : rowCollide t1 X Y (i0 + 1) c ↔ rowCollide t X Y (i0 + 1) c := by
        constructor
        · rintro ⟨i, hi1, hi2, j, hj, hbit, hpix⟩
          rw [CLi, hmem1 i hi2 hi1] at hbit
          rw [hVX1, hVY1] at hpix
          rw [CLp ((t.V X + j) % 64) ((t.V Y + i) % 32) (by omega) (by omega)] at hpix
          have hno : ¬ colHit ((t.V Y + i0) % 32) (t.V X) (t.Memory (t.I + i0)) 0 8
              ((t.V X + j) % 64) ((t.V Y + i) % 32) := by
            rintro ⟨j2, _, _, hyy, _⟩
            omega
          rw [decide_eq_false hno] at hpix
          refine ⟨i, hi1, hi2, j, hj, hbit, ?_⟩
          simpa using hpix
        · rintro ⟨i, hi1, hi2, j, hj, hbit, hpix⟩
          refine ⟨i, hi1, hi2, j, hj, ?_, ?_⟩
          · rw [CLi, hmem1 i hi2 hi1]
            exact hbit
          · rw [hVX1, hVY1]
            rw [CLp ((t.V X + j) % 64) ((t.V Y + i) % 32) (by omega) (by omega)]
            have hno : ¬ colHit ((t.V Y + i0) % 32) (t.V X) (t.Memory (t.I + i0)) 0 8
                ((t.V X + j) % 64) ((t.V Y + i) % 32) := by
              rintro ⟨j2, _, _, hyy, _⟩
              omega
            rw [decide_eq_false hno]
            simpa using hpix
      have hsplit := rowCollide_split t X Y i0 c
      have hone := rowCollide_one t X Y i0
      have harg : (if rowCollide t1 X Y (i0 + 1) c then (1 : Nat)
            else if colCollide t.Memory ((t.V Y + i0) % 32) (t.V X) (t.Memory (t.I + i0)) 0 8
              then 1 else t.V 15) =
          (if rowCollide t X Y i0 (c + 1) then 1 else t.V 15) := by
        by_cases h1 : rowCollide t X Y (i0 + 1) c
        · rw [if_pos (hcc.mpr h1), if_pos (hsplit.mpr (Or.inr h1))]
        · rw [if_neg (fun hc => h1 (hcc.mp hc))]
          by_cases h0 : colCollide t.Memory ((t.V Y + i0) % 32) (t.V X) (t.Memory (t.I + i0)) 0 8
          · rw [if_pos h0, if_pos (hsplit.mpr (Or.inl (hone.mpr h0)))]
          · rw [if_neg h0, if_neg]
            intro hc
            rcases hsplit.mp hc with h | h
            exacts [h0 (hone.mp h), h1 h]
      rw [harg]
    · rw [Ipc, CLpc]
    · rw [Ii, CLi]
    · rw [Isp, CLsp]
    · rw [Idt, CLdt]
    · rw [Ist, CLst]
    · rw [Itc, CLtc]
    · rw [Ikb, CLkb]


theorem rowCollide_congr (t t1 : Chip8) (X Y i0 cnt : Nat)
    (hVX : t1.V X = t.V X) (hVY : t1.V Y = t.V Y) (hII : t1.I = t.I)
    (hmem : t1.Memory = t.Memory) :
    rowCollide t1 X Y i0 cnt ↔ rowCollide t X Y i0 cnt := by
  unfold rowCollide
  rw [hVX, hVY, hII, hmem]

theorem draw_spec (rnd w : Nat) (s : Chip8)
    (h3 : nib3 w = 13) (hX : nib2 w ≠ 15) (hY : nib1 w ≠ 15)
    (hI : s.I + nib0 w ≤ 0xf00) :
    (∀ x' y', x' < 64 → y' < 32 →
      videoGet (dispatch rnd w s).Memory (y' * 64 + x') =
        xor (videoGet s.Memory (y' * 64 + x'))
          (decide (rowHit s (nib2 w) (nib1 w) 0 (nib0 w) x' y'))) ∧
    ((dispatch rnd w s).V = Function.update s.V 15
      (if rowCollide s (nib2 w) (nib1 w) 0 (nib0 w) then 1 else 0)) ∧
    (∀ a, a < 0xf00 → (dispatch rnd w s).Memory a = s.Memory a) ∧
    (dispatch rnd w s).PC = s.PC ∧ (dispatch rnd w s).I = s.I ∧
    (dispatch rnd w s).SP = s.SP ∧ (dispatch rnd w s).DelayTimer = s.DelayTimer ∧
    (dispatch rnd w s).SoundTimer = s.SoundTimer ∧
    (dispatch rnd w s).TimeCounter = s.TimeCounter ∧
    (dispatch rnd w s).Keyboard = s.Keyboard := by
  have hstep : dispatch rnd w s =
      rowLoop (nib2 w) (nib1 w) 0 (nib0 w) { s with V := Function.update s.V 15 0 } := by
    rw [dispatch]
    simp only [h3]
    norm_num
  have hn0 : nib0 w ≤ 15 := by rw [nib0_eq]; omega
  obtain ⟨Rm, Rp, Rv, Rpc, Ri, Rsp, Rdt, Rst, Rtc, Rkb⟩ :=
    rowLoop_spec (nib2 w) (nib1 w) hX hY (nib0 w) 0
      { s with V := Function.update s.V 15 0 } (by omega)
      (by show s.I + (0 + nib0 w) ≤ 0xf00; omega)
  have hVX : Function.update s.V 15 0 (nib2 w) = s.V (nib2 w) := Function.update_noteq hX 0 s.V
  have hVY : Function.update s.V 15 0 (nib1 w) = s.V (nib1 w) := Function.update_noteq hY 0 s.V
  have hHit : ∀ x' y',
      rowHit { s with V := Function.update s.V 15 0 } (nib2 w) (nib1 w) 0 (nib0 w) x' y' ↔
        rowHit s (nib2 w) (nib1 w) 0 (nib0 w) x' y' :=
    fun x' y' => rowHit_congr s _ (nib2 w) (nib1 w) 0 (nib0 w) x' y' hVX hVY rfl
      (fun _ _ _ => rfl)
  have hColl : rowCollide { s with V := Function.update s.V 15 0 } (nib2 w) (nib1 w)
      0 (nib0 w) ↔ rowCollide s (nib2 w) (nib1 w) 0 (nib0 w) :=
    rowCollide_congr s _ (nib2 w) (nib1 w) 0 (nib0 w) hVX hVY rfl rfl
  rw [hstep]
  refine ⟨?_, ?_, Rm, Rpc, Ri, Rsp, Rdt, Rst, Rtc, Rkb⟩
  · intro x' y' hx' hy'
    rw [Rp x' y' hx' hy', decide_eq_decide.mpr (hHit x' y')]
  · rw [Rv]
    dsimp only
    rw [Function.update_idem, Function.update_same]
    rw [if_congr hColl rfl rfl]

/-- Claim C3 (amended): for a `DXYN` draw with X, Y different from `F` and the
sprite bytes `memory[I..I+N)` outside the framebuffer region, every pixel is
XORed with the claimed sprite bit, VF is zeroed first (so N = 0 leaves
VF = 0), and VF ends 1 exactly when some set pixel is cleared. -/
theorem C3_draw_sprite (rnd w : Nat) (s : Chip8)
    (hw : fetch s = w) (h3 : nib3 w = 13) (hX : nib2 w ≠ 15) (hY : nib1 w ≠ 15)
    (hI : s.I + nib0 w ≤ 0xf00) :
    (∀ x y, x < 64 → y < 32 →
      GetPixel (execute rnd s) x y =
        xor (GetPixel s x y) (decide (rowHit s (nib2 w) (nib1 w) 0 (nib0 w) x y))) ∧
    ((execute rnd s).V 15 =
      (if rowCollide s (nib2 w) (nib1 w) 0 (nib0 w) then 1 else 0)) ∧
    (nib0 w = 0 → (execute rnd s).V 15 = 0) := by
  have hD := draw_spec rnd w { s with PC := wrap16 (s.PC + 2) } h3 hX hY hI
  rw [execute, hw]
  refine ⟨?_, ?_, ?_⟩
  · intro x y hx hy
    exact hD.1 x y hx hy
  · rw [hD.2.1, Function.update_same]
    rw [if_congr (rowCollide_congr s { s with PC := wrap16 (s.PC + 2) }
      (nib2 w) (nib1 w) 0 (nib0 w) rfl rfl rfl rfl) rfl rfl]
  · intro hN0
    rw [hD.2.1, Function.update_same]
    rw [if_neg]
    intro hc
    obtain ⟨i, hi1, _⟩ := hc
    omega


/-- Claim C5 (amended): executing the same `DXYN` instruction twice in
succession (the sprite bytes lying outside the framebuffer and X, Y different
from `F`, so that I, VX, VY and the sprite are unchanged in between) restores
every framebuffer pixel, and the second draw sets VF to 1 if and only if the
first draw turned some pixel from unset to set (a set sprite bit over an
initially clear pixel) - not unconditionally. -/
theorem C5_draw_twice (rnd1 rnd2 w : Nat) (s : Chip8)
    (hw1 : fetch s = w) (h3 : nib3 w = 13) (hX : nib2 w ≠ 15) (hY : nib1 w ≠ 15)
    (hI : s.I + nib0 w ≤ 0xf00)
    (hw2 : fetch (execute rnd1 s) = w) :
    (∀ x y, x < 64 → y < 32 →
      GetPixel (execute rnd2 (execute rnd1 s)) x y = GetPixel s x y) ∧
    ((execute rnd2 (execute rnd1 s)).V 15 = 1 ↔
      ∃ x < 64, ∃ y < 32, rowHit s (nib2 w) (nib1 w) 0 (nib0 w) x y ∧
        GetPixel s x y = false) := by
  have hD1 := draw_spec rnd1 w { s with PC := wrap16 (s.PC + 2) } h3 hX hY hI
  have he1 : execute rnd1 s = dispatch rnd1 w { s with PC := wrap16 (s.PC + 2) } := by
    rw [execute, hw1]
  have F1 : ∀ x y, x < 64 → y < 32 →
      videoGet (execute rnd1 s).Memory (y * 64 + x) =
        xor (videoGet s.Memory (y * 64 + x))
          (decide (rowHit s (nib2 w) (nib1 w) 0 (nib0 w) x y)) := by
    intro x y hx hy
    rw [he1]
    exact hD1.1 x y hx hy
  have F2 : (execute rnd1 s).V = Function.update s.V 15
      (if rowCollide s (nib2 w) (nib1 w) 0 (nib0 w) then 1 else 0) := by
    rw [he1, hD1.2.1]
    dsimp only
    rw [if_congr (rowCollide_congr s { s with PC := wrap16 (s.PC + 2) }
      (nib2 w) (nib1 w) 0 (nib0 w) rfl rfl rfl rfl) rfl rfl]
  have F3 : ∀ a, a < 0xf00 → (execute rnd1 s).Memory a = s.Memory a := by
    intro a ha
    rw [he1]
    exact hD1.2.2.1 a ha
  have F4 : (execute rnd1 s).I = s.I := by
    rw [he1]
    exact hD1.2.2.2.2.1
  have hVX1 : (execute rnd1 s).V (nib2 w) = s.V (nib2 w) := by
    rw [F2, Function.update_noteq hX]
  have hVY1 : (execute rnd1 s).V (nib1 w) = s.V (nib1 w) := by
    rw [F2, Function.update_noteq hY]
  have hmem1 : ∀ i, 0 ≤ i → i < 0 + nib0 w →
      (execute rnd1 s).Memory (s.I + i) = s.Memory (s.I + i) :=
    fun i _ hi => F3 (s.I + i) (by omega)
  have hHit1 : ∀ x y, rowHit (execute rnd1 s) (nib2 w) (nib1 w) 0 (nib0 w) x y ↔
      rowHit s (nib2 w) (nib1 w) 0 (nib0 w) x y :=
    fun x y => rowHit_congr s (execute rnd1 s) (nib2 w) (nib1 w) 0 (nib0 w) x y
      hVX1 hVY1 F4 hmem1
  have hI2 : (execute rnd1 s).I + nib0 w ≤ 0xf00 := by rw [F4]; exact hI
  have hD2 := draw_spec rnd2 w
    { execute rnd1 s with PC := wrap16 ((execute rnd1 s).PC + 2) } h3 hX hY hI2
  have he2 : execute rnd2 (execute rnd1 s) =
      dispatch rnd2 w { execute rnd1 s with PC := wrap16 ((execute rnd1 s).PC + 2) } := by
    rw [execute, hw2]
  have G1 : ∀ x y, x < 64 → y < 32 →
      videoGet (execute rnd2 (execute rnd1 s)).Memory (y * 64 + x) =
        xor (videoGet (execute rnd1 s).Memory (y * 64 + x))
          (decide (rowHit (execute rnd1 s) (nib2 w) (nib1 w) 0 (nib0 w) x y)) := by
    intro x y hx hy
    rw [he2]
    exact hD2.1 x y hx hy
  have G2 : (execute rnd2 (execute rnd1 s)).V 15 =
      (if rowCollide (execute rnd1 s) (nib2 w) (nib1 w) 0 (nib0 w) then 1 else 0) := by
    rw [he2, hD2.2.1]
    dsimp only
    rw [Function.update_same]
    rw [if_congr (rowCollide_congr (execute rnd1 s)
      { execute rnd1 s with PC := wrap16 ((execute rnd1 s).PC + 2) }
      (nib2 w) (nib1 w) 0 (nib0 w) rfl rfl rfl rfl) rfl rfl]
  constructor
  · intro x y hx hy
    show videoGet (execute rnd2 (execute rnd1 s)).Memory (y * 64 + x) =
      videoGet s.Memory (y * 64 + x)
    rw [G1 x y hx hy, decide_eq_decide.mpr (hHit1 x y), F1 x y hx hy,
        Bool.xor_assoc, Bool.xor_self, Bool.xor_false]
  · rw [G2]
    by_cases hc : rowCollide (execute rnd1 s) (nib2 w) (nib1 w) 0 (nib0 w)
    · rw [if_pos hc]
      simp only [true_iff]
      obtain ⟨i, hiN, _, j, hj, hbit1, hpix1⟩ := hc
      rw [F4, hmem1 i (by omega) hiN] at hbit1
      rw [hVX1, hVY1] at hpix1
      have hxb : (s.V (nib2 w) + j) % 64 < 64 := Nat.mod_lt _ (by norm_num)
      have hyb : (s.V (nib1 w) + i) % 32 < 32 := Nat.mod_lt _ (by norm_num)
      have hhit0 : rowHit s (nib2 w) (nib1 w) 0 (nib0 w)
          ((s.V (nib2 w) + j) % 64) ((s.V (nib1 w) + i) % 32) :=
        ⟨i, hiN, by omega, rfl, j, hj, rfl, hbit1⟩
      rw [F1 _ _ hxb hyb, decide_eq_true hhit0, Bool.xor_true] at hpix1
      refine ⟨(s.V (nib2 w) + j) % 64, hxb, (s.V (nib1 w) + i) % 32, hyb, hhit0, ?_⟩
      show videoGet s.Memory (((s.V (nib1 w) + i) % 32) * 64 + (s.V (nib2 w) + j) % 64) = false
      simpa using hpix1
    · rw [if_neg hc]
      have h01 : ((0 : Nat) = 1) ↔ False := by norm_num
      rw [h01, false_iff]
      rintro ⟨x, hx, y, hy, hhit, hpf⟩
      apply hc
      obtain ⟨i, hiN, _, hyeq, j, hj, hxeq, hbit⟩ := hhit
      refine ⟨i, hiN, by omega, j, hj, ?_, ?_⟩
      · rw [F4, hmem1 i (by omega) hiN]
        exact hbit
      · rw [hVX1, hVY1]
        have hxb : (s.V (nib2 w) + j) % 64 < 64 := Nat.mod_lt _ (by norm_num)
        have hyb : (s.V (nib1 w) + i) % 32 < 32 := Nat.mod_lt _ (by norm_num)
        rw [F1 _ _ hxb hyb]
        have hhit0 : rowHit s (nib2 w) (nib1 w) 0 (nib0 w)
            ((s.V (nib2 w) + j) % 64) ((s.V (nib1 w) + i) % 32) :=
          ⟨i, hiN, by omega, rfl, j, hj, rfl, hbit⟩
        rw [decide_eq_true hhit0, Bool.xor_true]
        have hpf2 : videoGet s.Memory (y * 64 + x) = false := hpf
        rw [hxeq, hyeq] at hpf2
        rw [hpf2]
        rfl

/-- A machine about to draw `D012` whose sprite source `I = 0xF00` lies
inside the framebuffer, with V0 = 8, V1 = 0 and framebuffer byte `0xF00`
set to 0xFF. -/
def drawOverlapState : Chip8 where
  Memory := fun a => if a = 0x200 then 0xD0 else if a = 0x201 then 0x12
    else if a = 0xF00 then 0xFF else 0
  V := fun i => if i = 0 then 8 else 0
  PC := 0x200
  I := 0xF00
  SP := 0
  DelayTimer := 0
  SoundTimer := 0
  TimeCounter := 0
  Keyboard := fun _ => false

/-- Claim C3 counterexample: with the sprite source inside the framebuffer,
row 0 of the draw rewrites the byte that row 1 then reads, so pixel (8, 1)
ends set even though bit 0 of the pre-draw byte `memory[I + 1]` is clear -
the claimed XOR against `memory[I..I+N)` as read before the draw fails. -/
theorem C3_draw_sprite_counterexample :
    GetPixel (execute 0 drawOverlapState) 8 1 = true ∧
      GetPixel drawOverlapState 8 1 = false ∧
      drawOverlapState.Memory (drawOverlapState.I + 1) &&& 0x80 = 0 :=
  ⟨by decide, by decide, by decide⟩

/-- A machine about to draw `D012`: a 2-row sprite at `I = 0x300`, drawn at
(V0, V1) = (60, 30) so that it wraps around both screen edges. -/
def drawDemoState : Chip8 where
  Memory := fun a => if a = 0x200 then 0xD0 else if a = 0x201 then 0x12
    else if a = 0x300 then 0xFF else if a = 0x301 then 0x81 else 0
  V := fun i => if i = 0 then 60 else if i = 1 then 30 else 0
  PC := 0x200
  I := 0x300
  SP := 0
  DelayTimer := 0
  SoundTimer := 0
  TimeCounter := 0
  Keyboard := fun _ => false

/-- Claim C3 witness: the amended statement applied to a wrapping 2-row draw. -/
theorem C3_draw_sprite_witness :
    fetch drawDemoState = 0xD012 ∧ nib3 0xD012 = 13 ∧ nib2 0xD012 ≠ 15 ∧
      nib1 0xD012 ≠ 15 ∧ drawDemoState.I + nib0 0xD012 ≤ 0xf00 ∧
      ((∀ x y, x < 64 → y < 32 →
        GetPixel (execute 0 drawDemoState) x y =
          xor (GetPixel drawDemoState x y)
            (decide (rowHit drawDemoState (nib2 0xD012) (nib1 0xD012) 0 (nib0 0xD012) x y))) ∧
      ((execute 0 drawDemoState).V 15 =
        (if rowCollide drawDemoState (nib2 0xD012) (nib1 0xD012) 0 (nib0 0xD012)
         then 1 else 0)) ∧
      (nib0 0xD012 = 0 → (execute 0 drawDemoState).V 15 = 0)) :=
  ⟨by decide, by decide, by decide, by decide, by decide,
   C3_draw_sprite 0 0xD012 drawDemoState (by decide) (by decide) (by decide)
     (by decide) (by decide)⟩

/-- A machine with the instruction `D011` at both 0x200 and 0x202, a one-byte
sprite 0x80 at `I = 0x300`, and pixel (0, 0) already set. -/
def drawTwiceDemoState : Chip8 where
  Memory := fun a => if a = 0x200 then 0xD0 else if a = 0x201 then 0x11
    else if a = 0x202 then 0xD0 else if a = 0x203 then 0x11
    else if a = 0x300 then 0x80 else if a = 0xF00 then 0x80 else 0
  V := fun _ => 0
  PC := 0x200
  I := 0x300
  SP := 0
  DelayTimer := 0
  SoundTimer := 0
  TimeCounter := 0
  Keyboard := fun _ => false

/-- Claim C5 counterexample: drawing the nonzero sprite 0x80 twice at (0, 0)
over an already-set pixel restores the framebuffer, but the second draw
reports VF = 0, not 1 - the only sprite bit lands on a pixel the first draw
turned off, so the second draw sees a clear pixel and no collision. -/
theorem C5_draw_twice_counterexample :
    drawTwiceDemoState.Memory drawTwiceDemoState.I = 0x80 ∧
      GetPixel drawTwiceDemoState 0 0 = true ∧
      GetPixel (execute 0 (execute 0 drawTwiceDemoState)) 0 0 = true ∧
      (execute 0 (execute 0 drawTwiceDemoState)).V 15 = 0 :=
  ⟨by decide, by decide, by decide, by decide⟩

/-- Claim C5 witness: the amended statement applied to the double `D011`
machine. -/
theorem C5_draw_twice_witness :
    fetch drawTwiceDemoState = 0xD011 ∧ nib3 0xD011 = 13 ∧ nib2 0xD011 ≠ 15 ∧
      nib1 0xD011 ≠ 15 ∧ drawTwiceDemoState.I + nib0 0xD011 ≤ 0xf00 ∧
      fetch (execute 0 drawTwiceDemoState) = 0xD011 ∧
      ((∀ x y, x < 64 → y < 32 →
        GetPixel (execute 0 (execute 0 drawTwiceDemoState)) x y =
          GetPixel drawTwiceDemoState x y) ∧
      ((execute 0 (execute 0 drawTwiceDemoState)).V 15 = 1 ↔
        ∃ x < 64, ∃ y < 32,
          rowHit drawTwiceDemoState (nib2 0xD011) (nib1 0xD011) 0 (nib0 0xD011) x y ∧
          GetPixel drawTwiceDemoState x y = false)) :=
  ⟨by decide, by decide, by decide, by decide, by decide, by decide,
   C5_draw_twice 0 0 0xD011 drawTwiceDemoState (by decide) (by decide) (by decide)
     (by decide) (by decide) (by decide)⟩

/-! ### Claim C7: the 60 Hz timer pacing -/

theorem toNat_cast_q (x : ℤ) (h : 0 ≤ x) : ((x.toNat : ℚ)) = (x : ℚ) := by
  exact_mod_cast Int.toNat_of_nonneg h

theorem dec_if (d : Nat) : (if 0 < d then d - 1 else d) = d - 1 := by
  split <;> omega

theorem timerLoopF_eval : ∀ fuel (tc : ℚ) (d e : Nat),
    (⌈tc * 60⌉ - 1).toNat ≤ fuel →
    timerLoopF fuel tc d e =
      (tc - ((⌈tc * 60⌉ - 1).toNat : ℚ) * TimePeriod,
       d - (⌈tc * 60⌉ - 1).toNat, e - (⌈tc * 60⌉ - 1).toNat) := by
  intro fuel
  induction fuel with
  | zero =>
    intro tc d e hle
    have hK : (⌈tc * 60⌉ - 1).toNat = 0 := by omega
    rw [timerLoopF, hK]
    norm_num
  | succ f ih =>
    intro tc d e hle
    rw [timerLoopF]
    by_cases hgt : tc > TimePeriod
    · rw [if_pos hgt]
      have h1 : (1 : ℚ) < tc * 60 := by
        rw [TimePeriod] at hgt
        linarith
      have hc2 : (2 : ℤ) ≤ ⌈tc * 60⌉ := by
        have h2 : (1 : ℚ) < (⌈tc * 60⌉ : ℚ) := lt_of_lt_of_le h1 (Int.le_ceil _)
        have h3 : (1 : ℤ) < ⌈tc * 60⌉ := by exact_mod_cast h2
        omega
      have hceil : ⌈(tc - TimePeriod) * 60⌉ = ⌈tc * 60⌉ - 1 := by
        have hq : (tc - TimePeriod) * 60 = tc * 60 - ((1 : ℤ) : ℚ) := by
          rw [TimePeriod]; push_cast; ring
        rw [hq, Int.ceil_sub_int]
      rw [ih (tc - TimePeriod) _ _ (by rw [hceil]; omega)]
      rw [dec_if, dec_if, hceil]
      have hK1 : ((⌈tc * 60⌉ - 1 - 1).toNat : ℚ) = ((⌈tc * 60⌉ : ℤ) : ℚ) - 2 := by
        rw [toNat_cast_q _ (by omega)]
        push_cast
        ring
      have hK2 : ((⌈tc * 60⌉ - 1).toNat : ℚ) = ((⌈tc * 60⌉ : ℤ) : ℚ) - 1 := by
        rw [toNat_cast_q _ (by omega)]
        push_cast
        ring
      refine Prod.ext ?_ (Prod.ext ?_ ?_)
      · show tc - TimePeriod - ((⌈tc * 60⌉ - 1 - 1).toNat : ℚ) * TimePeriod =
          tc - ((⌈tc * 60⌉ - 1).toNat : ℚ) * TimePeriod
        rw [hK1, hK2, TimePeriod]
        ring
      · show d - 1 - (⌈tc * 60⌉ - 1 - 1).toNat = d - (⌈tc * 60⌉ - 1).toNat
        omega
      · show e - 1 - (⌈tc * 60⌉ - 1 - 1).toNat = e - (⌈tc * 60⌉ - 1).toNat
        omega
    · rw [if_neg hgt]
      have hle1 : tc * 60 ≤ 1 := by
        rw [TimePeriod] at hgt
        push_neg at hgt
        linarith
      have hc1 : ⌈tc * 60⌉ ≤ 1 := Int.ceil_le.mpr (by exact_mod_cast hle1)
      have hK : (⌈tc * 60⌉ - 1).toNat = 0 := by omega
      rw [hK]
      norm_num

theorem tickTimers_eval (dt : ℚ) (s : Chip8) :
    tickTimers dt s = { s with
      TimeCounter := (s.TimeCounter + dt) -
        ((⌈(s.TimeCounter + dt) * 60⌉ - 1).toNat : ℚ) * TimePeriod,
      DelayTimer := s.DelayTimer - (⌈(s.TimeCounter + dt) * 60⌉ - 1).toNat,
      SoundTimer := s.SoundTimer - (⌈(s.TimeCounter + dt) * 60⌉ - 1).toNat } := by
  rw [tickTimers]
  rw [timerLoopF_eval (timerFuel (s.TimeCounter + dt)) _ _ _ (by rw [timerFuel]; omega)]

theorem dispatch_zero (rnd : Nat) (t : Chip8) :
    dispatch rnd 0 t = { t with PC := sub16 t.PC 2 } := by
  rw [dispatch]
  norm_num [nib3, lowByte]

theorem clockCycle_stall (rnd : Nat) (dt : ℚ) (u : Chip8)
    (h0 : u.Memory u.PC = 0) (h1 : u.Memory (u.PC + 1) = 0) (hpc : u.PC < 65536) :
    ClockCycle rnd dt u = { u with
      TimeCounter := (u.TimeCounter + dt) -
        ((⌈(u.TimeCounter + dt) * 60⌉ - 1).toNat : ℚ) * TimePeriod,
      DelayTimer := u.DelayTimer - (⌈(u.TimeCounter + dt) * 60⌉ - 1).toNat,
      SoundTimer := u.SoundTimer - (⌈(u.TimeCounter + dt) * 60⌉ - 1).toNat } := by
  rw [ClockCycle, tickTimers_eval, execute]
  have hf : fetch { u with
      TimeCounter := (u.TimeCounter + dt) -
        ((⌈(u.TimeCounter + dt) * 60⌉ - 1).toNat : ℚ) * TimePeriod,
      DelayTimer := u.DelayTimer - (⌈(u.TimeCounter + dt) * 60⌉ - 1).toNat,
      SoundTimer := u.SoundTimer - (⌈(u.TimeCounter + dt) * 60⌉ - 1).toNat } = 0 := by
    rw [fetch]
    dsimp only
    rw [h0, h1]
    rfl
  rw [hf, dispatch_zero]
  dsimp only
  rw [pc_net u.PC hpc]

theorem timerLoopF_le : ∀ fuel (tc : ℚ) (d e : Nat),
    (timerLoopF fuel tc d e).2.1 ≤ d ∧ (timerLoopF fuel tc d e).2.2 ≤ e := by
  intro fuel
  induction fuel with
  | zero => intro tc d e; exact ⟨le_refl d, le_refl e⟩
  | succ f ih =>
    intro tc d e
    rw [timerLoopF]
    by_cases hgt : tc > TimePeriod
    · rw [if_pos hgt]
      obtain ⟨hd, he⟩ := ih (tc - TimePeriod) (if 0 < d then d - 1 else d)
        (if 0 < e then e - 1 else e)
      constructor
      · exact le_trans hd (by split <;> omega)
      · exact le_trans he (by split <;> omega)
    · rw [if_neg hgt]
      exact ⟨le_refl d, le_refl e⟩


/-- Number of 60 Hz timer decrements that have occurred after `m` calls of
`ClockCycle` with `deltaTime = 1/500`. -/
def decCount (m : Nat) : Nat := (⌈(3 * m : ℚ) / 25⌉ - 1).toNat

theorem cycles_stall (rnd : Nat) (s : Chip8)
    (h0 : s.Memory s.PC = 0) (h1 : s.Memory (s.PC + 1) = 0) (hpc : s.PC < 65536)
    (htc : s.TimeCounter = 0) :
    ∀ m, (ClockCycle rnd (1/500))^[m] s = { s with
      TimeCounter := (m : ℚ) / 500 - (decCount m : ℚ) * TimePeriod,
      DelayTimer := s.DelayTimer - decCount m,
      SoundTimer := s.SoundTimer - decCount m } := by
  intro m
  induction m with
  | zero =>
    have hd0 : decCount 0 = 0 := by
      rw [decCount]
      norm_num
    rw [Function.iterate_zero_apply, hd0]
    cases s with
    | mk Memory V PC I SP DelayTimer SoundTimer TimeCounter Keyboard =>
      simp only at htc
      simp [htc]
  | succ m ih =>
    rw [Function.iterate_succ_apply', ih]
    rw [clockCycle_stall rnd (1/500)
      { s with
        TimeCounter := (m : ℚ) / 500 - (decCount m : ℚ) * TimePeriod,
        DelayTimer := s.DelayTimer - decCount m,
        SoundTimer := s.SoundTimer - decCount m } h0 h1 hpc]
    dsimp only
    have ha0 : (0 : ℤ) ≤ ⌈(3 * (m : ℚ)) / 25⌉ := by
      apply Int.ceil_nonneg
      positivity
    have hmono : ⌈(3 * (m : ℚ)) / 25⌉ ≤ ⌈(3 * ((m : ℚ) + 1)) / 25⌉ := by
      apply Int.ceil_le_ceil
      have hnum : (3 * (m : ℚ)) ≤ 3 * ((m : ℚ) + 1) := by linarith [Nat.cast_nonneg (α := ℚ) m]
      linarith
    have hdm : decCount m = (⌈(3 * (m : ℚ)) / 25⌉ - 1).toNat := rfl
    have hcast1 : ((m + 1 : ℕ) : ℚ) = (m : ℚ) + 1 := by push_cast; ring
    have hdm1 : decCount (m + 1) = (⌈(3 * ((m : ℚ) + 1)) / 25⌉ - 1).toNat := by
      rw [decCount, hcast1]
    have hkey : ⌈((m : ℚ) / 500 - (decCount m : ℚ) * TimePeriod + 1 / 500) * 60⌉ =
        ⌈(3 * ((m : ℚ) + 1)) / 25⌉ - (decCount m : ℤ) := by
      have hq : ((m : ℚ) / 500 - (decCount m : ℚ) * TimePeriod + 1 / 500) * 60 =
          (3 * ((m : ℚ) + 1)) / 25 - ((decCount m : ℤ) : ℚ) := by
        rw [TimePeriod]
        push_cast
        ring
      rw [hq, Int.ceil_sub_int]
    have hK : (⌈(3 * ((m : ℚ) + 1)) / 25⌉ - (decCount m : ℤ) - 1).toNat =
        decCount (m + 1) - decCount m := by omega
    have hle : decCount m ≤ decCount (m + 1) := by omega
    have eD : s.DelayTimer - decCount m -
        (⌈((m : ℚ) / 500 - (decCount m : ℚ) * TimePeriod + 1 / 500) * 60⌉ - 1).toNat =
        s.DelayTimer - decCount (m + 1) := by
      rw [hkey]
      omega
    have eS : s.SoundTimer - decCount m -
        (⌈((m : ℚ) / 500 - (decCount m : ℚ) * TimePeriod + 1 / 500) * 60⌉ - 1).toNat =
        s.SoundTimer - decCount (m + 1) := by
      rw [hkey]
      omega
    have eT : ((m : ℚ) / 500 - (decCount m : ℚ) * TimePeriod + 1 / 500) -
        ((⌈((m : ℚ) / 500 - (decCount m : ℚ) * TimePeriod + 1 / 500) * 60⌉ - 1).toNat : ℚ) *
          TimePeriod =
        ((m + 1 : ℕ) : ℚ) / 500 - (decCount (m + 1) : ℚ) * TimePeriod := by
      rw [hkey]
      have hcast2 : (((⌈(3 * ((m : ℚ) + 1)) / 25⌉ - (decCount m : ℤ) - 1).toNat : ℚ)) =
          (decCount (m + 1) : ℚ) - (decCount m : ℚ) := by
        rw [hK]
        push_cast [hle]
        ring
      rw [hcast2, hcast1, TimePeriod]
      ring
    rw [eD, eS, eT]


/-- Claim C7: on a machine whose executed instruction is a stall (so only the
timer subsystem acts), starting from a fresh accumulator with the delay timer
at 255, sixty `ClockCycle` calls at deltaTime = 1/500 s decrement the delay
timer by exactly 7 = floor(0.12 * 60); and in general each while-loop pass of
the 60 Hz timer bookkeeping only ever decrements the timers, which stop at 0
and never go below 0. -/
theorem C7_timers (rnd : Nat) (s : Chip8)
    (h0 : s.Memory s.PC = 0) (h1 : s.Memory (s.PC + 1) = 0) (hpc : s.PC < 65536)
    (htc : s.TimeCounter = 0) (hd : s.DelayTimer = 255) :
    ((ClockCycle rnd (1/500))^[60] s).DelayTimer = 248 ∧
    (∀ fuel (tc : ℚ) (d e : Nat),
      (timerLoopF fuel tc d e).2.1 ≤ d ∧ (d = 0 → (timerLoopF fuel tc d e).2.1 = 0) ∧
      (timerLoopF fuel tc d e).2.2 ≤ e ∧ (e = 0 → (timerLoopF fuel tc d e).2.2 = 0)) := by
  constructor
  · rw [cycles_stall rnd s h0 h1 hpc htc 60]
    dsimp only
    rw [hd]
    have h60 : decCount 60 = 7 := by
      rw [decCount]
      have hc : ⌈(3 * ((60 : ℕ) : ℚ)) / 25⌉ = 8 := by
        rw [Int.ceil_eq_iff] <;> norm_num
      rw [hc]
      rfl
    rw [h60]
  · intro fuel tc d e
    obtain ⟨hd2, he2⟩ := timerLoopF_le fuel tc d e
    refine ⟨hd2, fun h => by omega, he2, fun h => by omega⟩

/-- A freshly reset machine (all-zero program memory, so every cycle stalls)
with the delay timer set to 255. -/
def timerDemoState : Chip8 := { resetState with DelayTimer := 255 }

/-- Claim C7 witness: the statement applied to the reset machine with delay
timer 255. -/
theorem C7_timers_witness :
    timerDemoState.Memory timerDemoState.PC = 0 ∧
      timerDemoState.Memory (timerDemoState.PC + 1) = 0 ∧
      timerDemoState.PC < 65536 ∧ timerDemoState.TimeCounter = 0 ∧
      timerDemoState.DelayTimer = 255 ∧
      (((ClockCycle 0 (1/500))^[60] timerDemoState).DelayTimer = 248 ∧
        (∀ fuel (tc : ℚ) (d e : Nat),
          (timerLoopF fuel tc d e).2.1 ≤ d ∧
          (d = 0 → (timerLoopF fuel tc d e).2.1 = 0) ∧
          (timerLoopF fuel tc d e).2.2 ≤ e ∧
          (e = 0 → (timerLoopF fuel tc d e).2.2 = 0))) :=
  ⟨by decide, by decide, by decide, rfl, rfl,
   C7_timers 0 timerDemoState (by decide) (by decide) (by decide) rfl rfl⟩
